import Mathlib

/-!
Verification of the brewbindr BeerXML / brewing-calculation core.

This file is a shallow embedding, in Lean 4, of the TypeScript sources
`src/services/calculations.ts`, `src/services/beerXmlService.ts`, the
BeerXML export service, and the import-reconciliation flow of
`src/App.tsx`, together with theorems about them.

Modelling conventions:
* JavaScript numbers are modelled as `JSNum := Option ℚ`, where `none`
  stands for a non-finite value (`NaN` / `±Infinity`) and `some q` for the
  finite value `q`; exact rational arithmetic stands in for IEEE doubles.
* JavaScript truthiness on numbers (`!x`, `x || d`) is `jsFalsy` / `jsOr`:
  `0`, `NaN` and `undefined` are falsy.  Optional numeric fields
  (`f.color?.value` …) are flattened to a single `JSNum`, with `none`
  covering both an absent field and a stored `NaN` — the two are
  indistinguishable through `||`-style access, the only access the
  sources use.
* `Math.round` is `⌊x + 1/2⌋` (`jsRound`), exactly JavaScript's rounding.
* `Math.random().toString(36).substr(2, 9)` id generation is modelled as
  drawing from a fresh-id supply: ids are the naturals handed out by an
  explicit counter threaded through the reconciliation flow.
* The browser `DOMParser` (an external API, not repository code) maps the
  input text to a DOM tree; the embedded importer takes that tree, of
  type `Xml`.  DOM text nodes hold entity-decoded text, so the DOM tree
  denoted by exported text carries `decodeEntities` of what was emitted.
-/

/-- A JavaScript number: `none` = non-finite (NaN / ±Infinity). -/
abbrev JSNum := Option ℚ

/-- JS falsiness of a number-valued expression: `undefined`, `NaN` and `0`
are falsy. -/
def jsFalsy : JSNum → Bool
  | none => true
  | some q => q == 0

/-- JS `x || d` on numbers. -/
def jsOr (x d : JSNum) : JSNum := if jsFalsy x then d else x

/-- JS addition; NaN propagates. -/
def jsAdd : JSNum → JSNum → JSNum
  | some a, some b => some (a + b)
  | _, _ => none

/-- JS subtraction; NaN propagates. -/
def jsSub : JSNum → JSNum → JSNum
  | some a, some b => some (a - b)
  | _, _ => none

/-- JS multiplication; NaN propagates. -/
def jsMul : JSNum → JSNum → JSNum
  | some a, some b => some (a * b)
  | _, _ => none

/-- JS division; NaN propagates.  A zero divisor yields `±Infinity` (or
`NaN` for `0/0`) in JS, all collapsed to the non-finite marker here; every
division in the embedded sources guards its divisor to be nonzero. -/
def jsDiv : JSNum → JSNum → JSNum
  | some a, some b => if b = 0 then none else some (a / b)
  | _, _ => none

/-- JS `Math.round`: round half toward `+∞`, i.e. `⌊x + 1/2⌋`. -/
def jsRound (q : ℚ) : ℤ := ⌊q + 1/2⌋

/-- Decimal digits of a natural number, most significant first
(`natDigitsAux` carries fuel to keep the recursion structural; `n + 1`
units always suffice since the argument shrinks by a factor of 10). -/
def natDigitsAux : ℕ → ℕ → List Char
  | 0, _ => []
  | fuel + 1, n =>
      if n < 10 then [Char.ofNat (48 + n)]
      else natDigitsAux fuel (n / 10) ++ [Char.ofNat (48 + n % 10)]

def natDigits (n : ℕ) : List Char := natDigitsAux (n + 1) n

/-- Render an integer in decimal. -/
def intStr (n : ℤ) : String :=
  if n < 0 then "-" ++ ⟨natDigits n.natAbs⟩ else ⟨natDigits n.natAbs⟩

/-- Render a rational with a terminating decimal expansion the way JS
prints the corresponding double (`20` → `"20"`, `11/2` → `"5.5"`).
JS prints every float as a finite decimal (scientific notation aside);
rationals without a terminating expansion cannot arise as float values,
and get an arbitrary fallback rendering here — theorems that depend on
faithful printing carry it as an explicit hypothesis.
`renderExp` finds the smallest exponent `k ∈ [0, 41)` for which `q * 10^k`
is integral. -/
def renderExp (q : ℚ) : ℕ → ℕ → Option ℕ
  | _, 0 => none
  | k, fuel + 1 => if (q * 10 ^ k : ℚ).den = 1 then some k else renderExp q (k + 1) fuel

def renderQ (q : ℚ) : String :=
  match renderExp q 0 41 with
  | some k =>
      let n : ℤ := ((q * 10 ^ k : ℚ)).num
      if k = 0 then intStr n
      else
        let s := natDigits n.natAbs
        let s := List.replicate (k + 1 - s.length) '0' ++ s
        (if n < 0 then "-" else "") ++
          ⟨s.take (s.length - k)⟩ ++ "." ++ ⟨s.drop (s.length - k)⟩
  | none => "0"

/-- JS string interpolation of a number (`` `${x}` ``). -/
def numToStr : JSNum → String
  | none => "NaN"
  | some q => renderQ q

def isDigitChar (c : Char) : Bool := '0' ≤ c ∧ c ≤ '9'

def digitsVal (ds : List Char) : ℕ :=
  ds.foldl (fun acc c => acc * 10 + (c.toNat - 48)) 0

/-- JS `parseFloat`: skip leading whitespace, optional sign, then the
longest prefix of the form `digits [. digits] [e|E [sign] digits]`; at
least one digit must appear before the exponent or the result is `NaN`
(`none`).  `"Infinity"` is likewise collapsed to the non-finite marker. -/
def jsParseFloat (s : String) : JSNum :=
  let cs := s.data.dropWhile (fun c => c == ' ' || c == '\t' || c == '\n' || c == '\r')
  let (sgn, cs) : ℚ × List Char :=
    match cs with
    | '-' :: rest => (-1, rest)
    | '+' :: rest => (1, rest)
    | _ => (1, cs)
  let intDs := cs.takeWhile isDigitChar
  let cs := cs.dropWhile isDigitChar
  let (fracDs, cs) : List Char × List Char :=
    match cs with
    | '.' :: rest => (rest.takeWhile isDigitChar, rest.dropWhile isDigitChar)
    | _ => ([], cs)
  if intDs.isEmpty ∧ fracDs.isEmpty then none
  else
    let mant : ℚ := sgn * (digitsVal intDs + digitsVal fracDs / 10 ^ fracDs.length)
    let expPart : ℚ :=
      match cs with
      | c :: rest =>
          if c == 'e' ∨ c == 'E' then
            let (esgn, rest) : ℤ × List Char :=
              match rest with
              | '-' :: r => (-1, r)
              | '+' :: r => (1, r)
              | _ => (1, rest)
            let eds := rest.takeWhile isDigitChar
            if eds.isEmpty then 1 else (10 : ℚ) ^ (esgn * (digitsVal eds : ℤ))
          else 1
      | [] => 1
    some (mant * expPart)

/-- The XML entity encoding of one character, as produced by the export
service's `sanitize` (characters other than the five specials pass
through). -/
def entityOf (c : Char) : String :=
  if c = '&' then "&amp;"
  else if c = '<' then "&lt;"
  else if c = '>' then "&gt;"
  else if c = '"' then "&quot;"
  else if c = '\'' then "&apos;"
  else String.singleton c

/-- `sanitize` from the export service:
`str.replace(/[&<>"']/g, m => ({...}[m]))` — a single left-to-right pass
replacing every special character by its entity (replacements are not
re-scanned). -/
def sanitize (s : String) : String :=
  s.data.foldr (fun c acc => entityOf c ++ acc) ""

/-- Entity decoding as performed by `DOMParser` when building text nodes,
for the five entities the exporter emits (`decodeListAux` carries fuel to
keep the recursion structural; every step consumes at least one
character, so `l.length` units suffice). -/
def decodeListAux : ℕ → List Char → List Char
  | 0, l => l
  | _ + 1, [] => []
  | fuel + 1, c :: rest =>
      if c = '&' then
        if List.isPrefixOf ['a', 'm', 'p', ';'] rest then
          '&' :: decodeListAux fuel (rest.drop 4)
        else if List.isPrefixOf ['l', 't', ';'] rest then
          '<' :: decodeListAux fuel (rest.drop 3)
        else if List.isPrefixOf ['g', 't', ';'] rest then
          '>' :: decodeListAux fuel (rest.drop 3)
        else if List.isPrefixOf ['q', 'u', 'o', 't', ';'] rest then
          '"' :: decodeListAux fuel (rest.drop 5)
        else if List.isPrefixOf ['a', 'p', 'o', 's', ';'] rest then
          '\'' :: decodeListAux fuel (rest.drop 5)
        else '&' :: decodeListAux fuel rest
      else c :: decodeListAux fuel rest

def decodeList (l : List Char) : List Char := decodeListAux l.length l

def decodeEntities (s : String) : String := ⟨decodeList s.data⟩

/-- JS `str.replace(pat, rep)` with a string pattern: replace the first
occurrence only. -/
def jsReplaceOnceList (pat rep : List Char) : List Char → List Char
  | [] => []
  | c :: rest =>
      if List.isPrefixOf pat (c :: rest) then rep ++ (c :: rest).drop pat.length
      else c :: jsReplaceOnceList pat rep rest

def jsReplaceOnce (s pat rep : String) : String :=
  ⟨jsReplaceOnceList pat.data rep.data s.data⟩

/-- JS `a.join(sep)` on an array of strings. -/
def joinLines : List String → String
  | [] => ""
  | [p] => p
  | p :: ps => p ++ "\n" ++ joinLines ps

/-- JS `toLowerCase` (character-wise). -/
def strLower (s : String) : String := ⟨s.data.map Char.toLower⟩

/-- JS `trim`: strip whitespace from both ends. -/
def strTrim (s : String) : String :=
  ⟨((s.data.dropWhile Char.isWhitespace).reverse.dropWhile
      Char.isWhitespace).reverse⟩

/-- JS `startsWith`. -/
def strStartsWith (s p : String) : Bool := List.isPrefixOf p.data s.data

/-- JS `s || d` on strings: the empty string is falsy. -/
def strOr (s d : String) : String := if s = "" then d else s

/-! ## Unit normalizer (`src/services/calculations.ts`, `normalizeUnit`) -/

/-- `normalizeUnit(unit?: string)`: lowercase and trim, then a
prefix-based, order-sensitive match (the `lb`/`pound` check precedes the
`l` check).  A falsy input (absent or empty) yields `""`; an unmatched
string falls through as its lowercased, trimmed form. -/
def normalizeUnit (unit : Option String) : String :=
  match unit with
  | none => ""
  | some unit =>
    if unit = "" then ""
    else
      let u := strTrim (strLower unit)
      if strStartsWith u "kg" ∨ strStartsWith u "kilo" then "kilograms"
      else if strStartsWith u "lb" ∨ strStartsWith u "pound" then "pounds"
      else if u = "g" ∨ u = "gram" ∨ u = "grams" then "grams"
      else if u = "gr" ∨ u = "grain" ∨ u = "grains" then "grains"
      else if strStartsWith u "oz" ∨ strStartsWith u "ounce" then "ounces"
      else if strStartsWith u "l" ∧ ¬ strStartsWith u "lb" then "liters"
      else if strStartsWith u "gal" then "gallons"
      else if strStartsWith u "min" then "minutes"
      else u

/-! ## Data model (`src/types.ts`), restricted to the fields the embedded
functions read.  Optional numeric leaves (`yield?.potential?.value`,
`color?.value`, `alpha_acid?.value`, `efficiency?.brewhouse`,
`attenuation`) are flattened to a single `JSNum`. -/

structure UnitValue where
  unit : String
  value : JSNum
  deriving Repr, DecidableEq

structure Fermentable where
  name : String
  ftype : String
  amount : Option UnitValue
  /-- `yield?.potential?.value`, flattened. -/
  yieldPotential : JSNum
  /-- `color?.value`, flattened. -/
  color : JSNum
  libraryId : Option ℕ := none
  deriving Repr, DecidableEq

structure Hop where
  name : String
  amount : Option UnitValue
  /-- `alpha_acid?.value`, flattened. -/
  alphaAcid : JSNum
  use : String
  time : Option UnitValue
  libraryId : Option ℕ := none
  deriving Repr, DecidableEq

structure Culture where
  name : String
  ctype : String
  form : String
  attenuation : JSNum
  libraryId : Option ℕ := none
  deriving Repr, DecidableEq

structure Misc where
  name : String
  mtype : String
  use : String
  amount : Option UnitValue
  time : Option UnitValue
  deriving Repr, DecidableEq

structure MashStep where
  name : String
  stype : String
  step_temp : JSNum
  step_time : JSNum
  infuse_amount : JSNum
  ramp_time : JSNum
  end_temp : JSNum
  description : String
  deriving Repr, DecidableEq

structure MashProfile where
  name : String
  steps : List MashStep
  grain_temp : JSNum
  sparge_temp : JSNum
  ph : JSNum
  notes : String
  deriving Repr, DecidableEq

structure StyleRef where
  name : String
  category : String
  deriving Repr, DecidableEq

structure Ingredients where
  fermentables : List Fermentable
  hops : List Hop
  cultures : List Culture
  miscellaneous : List Misc := []
  deriving Repr, DecidableEq

structure Specifications where
  og : JSNum
  fg : JSNum
  abv : JSNum
  ibu : JSNum
  color : JSNum
  deriving Repr, DecidableEq

structure Recipe where
  /-- Generated ids are modelled as naturals from a fresh-id supply. -/
  id : Option ℕ := none
  name : String
  rtype : String
  author : String
  notes : String := ""
  batch_size : Option UnitValue
  style : Option StyleRef := none
  ingredients : Ingredients
  mash : Option MashProfile := none
  /-- `efficiency?.brewhouse`, flattened. -/
  efficiency : JSNum
  boil_time : Option UnitValue
  specifications : Option Specifications := none
  deriving Repr, DecidableEq

/-! ## Calculation engine (`src/services/calculations.ts`) -/

/-- `calculateABV(og, fg, isBottled, sugarG, volumeL)`. -/
def calculateABV (og fg : JSNum) (isBottled : Bool)
    (sugarG : ℚ := 0) (volumeL : ℚ := 1) : JSNum :=
  if jsFalsy og ∨ jsFalsy fg ∨ ¬ jsLt fg og then some 0
  else
    let abv := jsMul (jsSub og fg) (some 131.25)
    if isBottled ∧ sugarG > 0 ∧ volumeL > 0 then
      jsAdd abv (some (sugarG / volumeL * 0.05))
    else abv
where
  /-- JS `<` on numbers: false when either side is NaN. -/
  jsLt : JSNum → JSNum → Bool
    | some a, some b => a < b
    | _, _ => false

/-- `calculatePrimingSugar(targetCO2, liters, tempC, sugarType)`.
The temperature is modelled as a whole number of degrees so that
`Math.pow(0.97, tempC)` is rational. -/
def calculatePrimingSugar (targetCO2 liters : ℚ) (tempC : ℕ)
    (sugarType : String) : ℤ :=
  if liters ≤ 0 then 0
  else
    let residualCO2 : ℚ := 1.57 * (0.97 : ℚ) ^ tempC
    let neededCO2 : ℚ := max 0 (targetCO2 - residualCO2)
    let sugarG : ℚ := neededCO2 * 4 * liters
    let sugarG := if sugarType = "glucose" then sugarG * 1.15 else sugarG
    let sugarG := if sugarType = "dme" then sugarG * 1.4 else sugarG
    jsRound sugarG

/-- Fermentable weight in kilograms, as in `calculateRecipeStats`:
convert by the normalized unit, any unrecognized unit being taken as
kilograms already. -/
def fermWeightKg (a : UnitValue) : JSNum :=
  let unit := normalizeUnit (some a.unit)
  if unit = "pounds" then jsMul a.value (some 0.453592)
  else if unit = "grams" then jsDiv a.value (some 1000)
  else if unit = "ounces" then jsMul a.value (some 0.0283495)
  else a.value

/-- One fermentable's contribution to the gravity-points accumulator. -/
def fermPoints (efficiency batchSizeL : JSNum) (f : Fermentable) : JSNum :=
  match f.amount with
  | none => some 0
  | some a =>
    let weightKg := fermWeightKg a
    let potential := jsOr f.yieldPotential (some 1.037)
    let ppg := jsMul (jsSub potential (some 1)) (some 1000)
    let pkl := jsMul ppg (some 8.3454)
    jsDiv (jsMul (jsMul weightKg pkl) efficiency) (jsOr batchSizeL (some 1))

/-- Results of `calculateRecipeStats`.  The `color` (Morey) and `ibu`
(Tinseth) outputs involve the transcendental `Math.pow`/`Math.exp` with
non-integral arguments and are outside the rational embedding; no claim
refers to them. -/
structure RecipeStats where
  og : JSNum
  fg : JSNum
  abv : JSNum
  deriving Repr, DecidableEq

/-- `calculateRecipeStats(recipe)` (gravity/attenuation/alcohol part). -/
def calculateRecipeStats (recipe : Recipe) : RecipeStats :=
  let batchUnit := normalizeUnit ((recipe.batch_size).map (·.unit))
  let batchValue := jsOr ((recipe.batch_size).bind (·.value)) (some 0)
  let batchSizeL :=
    if batchUnit = "liters" then batchValue else jsMul batchValue (some 3.78541)
  let efficiency := jsDiv (jsOr recipe.efficiency (some 75)) (some 100)
  let fermentables := recipe.ingredients.fermentables
  let cultures := recipe.ingredients.cultures
  let totalPoints := fermentables.foldl
    (fun acc f => jsAdd acc (fermPoints efficiency batchSizeL f)) (some 0)
  let og := jsAdd (some 1) (jsDiv totalPoints (some 1000))
  let avgAttenuation :=
    if cultures.length > 0 then
      jsDiv (cultures.foldl (fun acc c => jsAdd acc (jsOr c.attenuation (some 75)))
        (some 0)) (some (cultures.length : ℚ))
    else some 75
  let fg := jsAdd (some 1)
    (jsMul (jsSub og (some 1)) (jsSub (some 1) (jsDiv avgAttenuation (some 100))))
  let abv := calculateABV og fg false
  { og := og, fg := fg, abv := abv }

/-! ## DOM model

`DOMParser` (a browser API, external to this repository) turns the input
text into a DOM tree; `parseBeerXml` only ever walks that tree through
`getElementsByTagName`, `parentElement` and `textContent`, all modelled
below.  Text nodes hold entity-decoded character data, as in the DOM.
Whitespace-only text nodes between elements are irrelevant to every query
the importer makes and are left out of constructed trees. -/

inductive Xml where
  | elem (tag : String) (children : List Xml)
  | text (s : String)
  deriving Repr

def Xml.tagName : Xml → String
  | .elem t _ => t
  | .text _ => ""

mutual

/-- All element nodes of a subtree paired with their parent's tag
(`none` for the root, whose `parentElement` is the document), in document
(pre-)order. -/
def elemsWithParent (p : Option String) : Xml → List (Option String × Xml)
  | .text _ => []
  | .elem t cs => (p, .elem t cs) :: elemsWithParentL t cs

def elemsWithParentL (t : String) : List Xml → List (Option String × Xml)
  | [] => []
  | c :: cs => elemsWithParent (some t) c ++ elemsWithParentL t cs

end

mutual

/-- Descendant-or-self elements with the given tag, in document order. -/
def descTagSelf (tag : String) : Xml → List Xml
  | .text _ => []
  | .elem t cls =>
      (if t = tag then [Xml.elem t cls] else []) ++ descTagL tag cls

def descTagL (tag : String) : List Xml → List Xml
  | [] => []
  | c :: cs => descTagSelf tag c ++ descTagL tag cs

end

/-- `el.getElementsByTagName(tag)`: the element's proper descendants with
the given tag, in document order. -/
def descTag (tag : String) : Xml → List Xml
  | .text _ => []
  | .elem _ cs => descTagL tag cs

mutual

/-- `node.textContent`: concatenated character data of the subtree. -/
def textContent : Xml → String
  | .text s => s
  | .elem _ cs => textContentL cs

def textContentL : List Xml → String
  | [] => ""
  | c :: cs => textContent c ++ textContentL cs

end

/-- `document.getElementsByTagName(tag)` together with each element's
parent tag, for the parent-based recipe-scope checks. -/
def docTagWithParent (doc : Xml) (tag : String) : List (Option String × Xml) :=
  (elemsWithParent none doc).filter (fun pe => pe.2.tagName = tag)

/-! ## BeerXML importer (`src/services/beerXmlService.ts`) -/

/-- `getVal(el, tag)`: text content of the first descendant with the tag,
`""` when the element or tag is missing (or the content is empty). -/
def getVal (el : Option Xml) (tag : String) : String :=
  match el.bind (fun e => (descTag tag e).head?) with
  | none => ""
  | some e => textContent e

/-- `getNum` applied to already-extracted text:
`parseFloat(text || "0")`. -/
def getNumStr (s : String) : JSNum :=
  jsParseFloat (if s = "" then "0" else s)

/-- `getNum(el, tag)`: `parseFloat` of the first matching descendant's
text content, the empty/absent content falling back to `"0"`. -/
def getNum (el : Option Xml) (tag : String) : JSNum :=
  getNumStr (match el.bind (fun e => (descTag tag e).head?) with
             | none => ""
             | some e => textContent e)

/-- `parseMashSteps(mashNode)`. -/
def parseMashSteps (mashNode : Xml) : List MashStep :=
  (descTag "MASH_STEP" mashNode).map fun s =>
    { name := getVal (some s) "NAME"
      stype := strOr (strLower (getVal (some s) "TYPE")) "infusion"
      step_temp := getNum (some s) "STEP_TEMP"
      step_time := getNum (some s) "STEP_TIME"
      infuse_amount := if jsFalsy (getNum (some s) "INFUSE_AMOUNT")
        then none else getNum (some s) "INFUSE_AMOUNT"
      ramp_time := if jsFalsy (getNum (some s) "RAMP_TIME")
        then none else getNum (some s) "RAMP_TIME"
      end_temp := if jsFalsy (getNum (some s) "END_TEMP")
        then none else getNum (some s) "END_TEMP"
      description := getVal (some s) "DESCRIPTION" }

/-- A `MASH` node parsed as a mash profile. -/
def parseMashNode (m : Xml) : MashProfile :=
  { name := getVal (some m) "NAME"
    steps := parseMashSteps m
    grain_temp := getNum (some m) "GRAIN_TEMP"
    sparge_temp := getNum (some m) "SPARGE_TEMP"
    ph := getNum (some m) "PH"
    notes := getVal (some m) "NOTES" }

/-- One `FERMENTABLE` node inside a recipe. -/
def parseFermEl (f : Xml) : Fermentable :=
  { name := getVal (some f) "NAME"
    ftype := (strLower (getVal (some f) "TYPE"))
    amount := some ⟨"kilograms", getNum (some f) "AMOUNT"⟩
    yieldPotential := jsOr (getNum (some f) "POTENTIAL") (some 1.037)
    color := getNum (some f) "COLOR" }

/-- One `HOP` node inside a recipe. -/
def parseHopEl (h : Xml) : Hop :=
  { name := getVal (some h) "NAME"
    amount := some ⟨"grams", jsMul (getNum (some h) "AMOUNT") (some 1000)⟩
    alphaAcid := getNum (some h) "ALPHA"
    use := strOr (jsReplaceOnce (strLower (getVal (some h) "USE")) " " "_") "boil"
    time := some ⟨"minutes", getNum (some h) "TIME"⟩ }

/-- One `MISC` node inside a recipe. -/
def parseMiscEl (m : Xml) : Misc :=
  { name := getVal (some m) "NAME"
    mtype := (strLower (getVal (some m) "TYPE"))
    use := (strLower (getVal (some m) "USE"))
    amount := some ⟨"grams", jsMul (getNum (some m) "AMOUNT") (some 1000)⟩
    time := some ⟨"minutes", getNum (some m) "TIME"⟩ }

/-- One `YEAST` node inside a recipe. -/
def parseYeastEl (y : Xml) : Culture :=
  { name := getVal (some y) "NAME"
    ctype := strOr (strLower (getVal (some y) "TYPE")) "ale"
    form := strOr (strLower (getVal (some y) "FORM")) "dry"
    attenuation := jsOr (getNum (some y) "ATTENUATION") (some 75) }

/-- One `RECIPE` element.  The random recipe id is modelled by a caller-
supplied fresh id. -/
def parseRecipeEl (freshId : ℕ) (r : Xml) : Recipe :=
  { id := some freshId
    name := getVal (some r) "NAME"
    rtype := strOr (jsReplaceOnce (strLower (getVal (some r) "TYPE")) " " "_")
      "all_grain"
    author := getVal (some r) "BREWER"
    notes := getVal (some r) "NOTES"
    batch_size := some ⟨"liters", getNum (some r) "BATCH_SIZE"⟩
    efficiency := getNum (some r) "EFFICIENCY"
    boil_time := some ⟨"minutes", getNum (some r) "BOIL_TIME"⟩
    ingredients :=
      { fermentables := (descTag "FERMENTABLE" r).map parseFermEl
        hops := (descTag "HOP" r).map parseHopEl
        cultures := (descTag "YEAST" r).map parseYeastEl
        miscellaneous := (descTag "MISC" r).map parseMiscEl }
    style := ((descTag "STYLE" r).head?).map fun s =>
      { name := getVal (some s) "NAME", category := getVal (some s) "CATEGORY" }
    mash := ((descTag "MASH" r).head?).map parseMashNode
    specifications := some
      { og := getNum (some r) "EST_OG"
        fg := getNum (some r) "EST_FG"
        abv := getNum (some r) "EST_ABV"
        ibu := getNum (some r) "IBU"
        color := getNum (some r) "EST_COLOR" } }

/-- A document-global `STYLE` library record (the fields the importer
copies; `type: 'style'` tags the record). -/
structure GlobalStyle where
  name : String
  category : String
  og_min : JSNum
  og_max : JSNum
  fg_min : JSNum
  fg_max : JSNum
  ibu_min : JSNum
  ibu_max : JSNum
  color_min : JSNum
  color_max : JSNum
  abv_min : JSNum
  abv_max : JSNum
  deriving Repr, DecidableEq

structure GlobalMisc where
  name : String
  misc_type : String
  misc_use : String
  deriving Repr, DecidableEq

def parseGlobalStyle (s : Xml) : GlobalStyle :=
  { name := getVal (some s) "NAME"
    category := getVal (some s) "CATEGORY"
    og_min := getNum (some s) "OG_MIN", og_max := getNum (some s) "OG_MAX"
    fg_min := getNum (some s) "FG_MIN", fg_max := getNum (some s) "FG_MAX"
    ibu_min := getNum (some s) "IBU_MIN", ibu_max := getNum (some s) "IBU_MAX"
    color_min := getNum (some s) "COLOR_MIN"
    color_max := getNum (some s) "COLOR_MAX"
    abv_min := getNum (some s) "ABV_MIN", abv_max := getNum (some s) "ABV_MAX" }

def parseGlobalMisc (m : Xml) : GlobalMisc :=
  { name := getVal (some m) "NAME"
    misc_type := (strLower (getVal (some m) "TYPE"))
    misc_use := (strLower (getVal (some m) "USE")) }

/-- `BeerXmlImportResult`.  The interface also declares `fermentables`,
`hops`, `cultures`, `waters` and `equipments` lists; `parseBeerXml` has
no code path that pushes into any of them. -/
structure BeerXmlImportResult where
  recipes : List Recipe
  fermentables : List Fermentable
  hops : List Hop
  cultures : List Culture
  miscs : List GlobalMisc
  waters : List Unit
  styles : List GlobalStyle
  equipments : List Unit
  mashes : List MashProfile
  deriving Repr, DecidableEq

/-- `parseBeerXml(xmlString)` after the `DOMParser` step: walk the DOM
tree.  Global `STYLE` nodes are kept when their immediate parent is not a
`RECIPE`; global `MISC` when the parent is neither `RECIPE` nor
`MISCELLANEOUS`; global `MASH` when the parent is not a `RECIPE`.
Recipe ids (`Math.random()…`) are modelled by the recipe's index. -/
def parseBeerXml (doc : Xml) : BeerXmlImportResult :=
  { recipes :=
      (((docTagWithParent doc "RECIPE").map Prod.snd).enum.map
        fun (i, r) => parseRecipeEl i r)
    fermentables := []
    hops := []
    cultures := []
    miscs :=
      (((docTagWithParent doc "MISC").filter
        (fun pe => ¬ (pe.1 = some "RECIPE" ∨ pe.1 = some "MISCELLANEOUS"))).map
        Prod.snd).map parseGlobalMisc
    waters := []
    styles :=
      (((docTagWithParent doc "STYLE").filter
        (fun pe => ¬ pe.1 = some "RECIPE")).map Prod.snd).map parseGlobalStyle
    equipments := []
    mashes :=
      (((docTagWithParent doc "MASH").filter
        (fun pe => ¬ pe.1 = some "RECIPE")).map Prod.snd).map parseMashNode }

/-! ## BeerXML exporter (export service; `sanitize`, `exportToBeerXml`,
`exportLibraryToBeerXml`) -/

/-- Access `uv.value` on a possibly-missing wrapper.  The TypeScript type
makes the wrapper required, so the `none` case (where JS would throw a
`TypeError`) only totalizes the model. -/
def uvValue : Option UnitValue → JSNum
  | none => none
  | some u => u.value

/-- `<TYPE>` mapping: snake_case model values to the interchange format's
title case. -/
def recipeTypeStr (r : Recipe) : String :=
  if r.rtype = "all_grain" then "All Grain"
  else if r.rtype = "extract" then "Extract"
  else "Partial Mash"

/-- The `xmlParts` line for one fermentable block. -/
def fermParts (f : Fermentable) : List String :=
  [ "      <FERMENTABLE>",
    "        <NAME>" ++ sanitize f.name ++ "</NAME>",
    "        <AMOUNT>" ++ numToStr (uvValue f.amount) ++ "</AMOUNT>",
    "        <COLOR>" ++ numToStr (jsOr f.color (some 0)) ++ "</COLOR>",
    "      </FERMENTABLE>" ]

def hopParts (h : Hop) : List String :=
  [ "      <HOP>",
    "        <NAME>" ++ sanitize h.name ++ "</NAME>",
    "        <ALPHA>" ++ numToStr (jsOr h.alphaAcid (some 0)) ++ "</ALPHA>",
    "        <AMOUNT>" ++ numToStr (jsDiv (uvValue h.amount) (some 1000)) ++
      "</AMOUNT>",
    "        <USE>" ++ sanitize h.use ++ "</USE>",
    "        <TIME>" ++ numToStr (uvValue h.time) ++ "</TIME>",
    "      </HOP>" ]

def miscParts (m : Misc) : List String :=
  [ "      <MISC>",
    "        <NAME>" ++ sanitize m.name ++ "</NAME>",
    "        <AMOUNT>" ++ numToStr (jsDiv (uvValue m.amount) (some 1000)) ++
      "</AMOUNT>",
    "        <TYPE>" ++ sanitize m.mtype ++ "</TYPE>",
    "        <USE>" ++ sanitize m.use ++ "</USE>",
    "        <TIME>" ++ numToStr (uvValue m.time) ++ "</TIME>",
    "      </MISC>" ]

def styleParts : Option StyleRef → List String
  | none => []
  | some s =>
    [ "    <STYLE>",
      "      <NAME>" ++ sanitize s.name ++ "</NAME>",
      "      <CATEGORY>" ++ sanitize s.category ++ "</CATEGORY>",
      "      <VERSION>1</VERSION>",
      "    </STYLE>" ]

/-- The `xmlParts` array built by `exportToBeerXml`, in push order. -/
def exportParts (r : Recipe) : List String :=
  [ "<?xml version=\x221.0\x22 encoding=\x22UTF-8\x22?>",
    "<RECIPES>",
    "  <RECIPE>",
    "    <NAME>" ++ sanitize r.name ++ "</NAME>",
    "    <VERSION>1</VERSION>",
    "    <TYPE>" ++ recipeTypeStr r ++ "</TYPE>" ]
  ++ styleParts r.style
  ++ [ "    <BREWER>" ++ sanitize (strOr r.author "brewbindr") ++ "</BREWER>",
       "    <BATCH_SIZE>" ++ numToStr (uvValue r.batch_size) ++ "</BATCH_SIZE>",
       "    <BOIL_TIME>" ++ numToStr (uvValue r.boil_time) ++ "</BOIL_TIME>",
       "    <EFFICIENCY>" ++ numToStr r.efficiency ++ "</EFFICIENCY>",
       "    <FERMENTABLES>" ]
  ++ r.ingredients.fermentables.foldr (fun f acc => fermParts f ++ acc) []
  ++ [ "    </FERMENTABLES>", "    <HOPS>" ]
  ++ r.ingredients.hops.foldr (fun h acc => hopParts h ++ acc) []
  ++ [ "    </HOPS>" ]
  ++ (if r.ingredients.miscellaneous.length > 0 then
        [ "    <MISCELLANEOUS>" ]
        ++ r.ingredients.miscellaneous.foldr (fun m acc => miscParts m ++ acc) []
        ++ [ "    </MISCELLANEOUS>" ]
      else [])
  ++ [ "  </RECIPE>", "</RECIPES>" ]

/-- `exportToBeerXml(recipe)`: `xmlParts.join('\n')`. -/
def exportToBeerXml (r : Recipe) : String := joinLines (exportParts r)

/-- Library entries (`LibraryIngredient`), with the fields the
reconciliation flow and the library exporter read.  Generated ids are
naturals from the fresh-id supply. -/
structure LibEntry where
  id : ℕ
  name : String
  ltype : String
  color : JSNum := none
  yld : JSNum := none
  alpha : JSNum := none
  attenuation : JSNum := none
  form : Option String := none
  misc_type : Option String := none
  misc_use : Option String := none
  category : Option String := none
  og_min : JSNum := none
  og_max : JSNum := none
  ibu_min : JSNum := none
  ibu_max : JSNum := none
  deriving Repr, DecidableEq

/-- JS `o || d` where `o` is a possibly-absent string field. -/
def strFieldOr (o : Option String) (d : String) : String :=
  match o with
  | none => d
  | some s => if s = "" then d else s

/-- `exportLibraryToBeerXml(ingredients)`. -/
def exportLibraryToBeerXml (ingredients : List LibEntry) : String :=
  joinLines
    ([ "<?xml version=\x221.0\x22 encoding=\x22UTF-8\x22?>", "<BREW_LIBRARY>" ]
     ++ (ingredients.filter (fun i => i.ltype = "misc")).foldr
          (fun m acc =>
            [ "  <MISC>",
              "    <NAME>" ++ sanitize m.name ++ "</NAME>",
              "    <TYPE>" ++ sanitize (strFieldOr m.misc_type "Other") ++
                "</TYPE>",
              "    <USE>" ++ sanitize (strFieldOr m.misc_use "Boil") ++
                "</USE>",
              "  </MISC>" ] ++ acc) []
     ++ (ingredients.filter (fun i => i.ltype = "style")).foldr
          (fun s acc =>
            [ "  <STYLE>",
              "    <NAME>" ++ sanitize s.name ++ "</NAME>",
              "    <CATEGORY>" ++ sanitize (strFieldOr s.category "") ++
                "</CATEGORY>",
              "    <OG_MIN>" ++ numToStr (jsOr s.og_min (some 0)) ++ "</OG_MIN>",
              "    <OG_MAX>" ++ numToStr (jsOr s.og_max (some 0)) ++ "</OG_MAX>",
              "    <IBU_MIN>" ++ numToStr (jsOr s.ibu_min (some 0)) ++
                "</IBU_MIN>",
              "    <IBU_MAX>" ++ numToStr (jsOr s.ibu_max (some 0)) ++
                "</IBU_MAX>",
              "  </STYLE>" ] ++ acc) []
     ++ [ "</BREW_LIBRARY>" ])

/-! ## The DOM tree of exported text

Feeding `exportToBeerXml`'s output back through `DOMParser` yields the DOM
tree below: the same tags in the same nesting as `exportParts`, each leaf
element holding one text node with the emitted character data
entity-decoded (whitespace-only text nodes between elements omitted, as
they are invisible to every query the importer makes). -/

/-- A leaf element holding the entity-decoded form of emitted text. -/
def leafX (tag content : String) : Xml :=
  .elem tag [.text (decodeEntities content)]

def exportFermTree (f : Fermentable) : Xml :=
  .elem "FERMENTABLE"
    [ leafX "NAME" (sanitize f.name),
      leafX "AMOUNT" (numToStr (uvValue f.amount)),
      leafX "COLOR" (numToStr (jsOr f.color (some 0))) ]

def exportHopTree (h : Hop) : Xml :=
  .elem "HOP"
    [ leafX "NAME" (sanitize h.name),
      leafX "ALPHA" (numToStr (jsOr h.alphaAcid (some 0))),
      leafX "AMOUNT" (numToStr (jsDiv (uvValue h.amount) (some 1000))),
      leafX "USE" (sanitize h.use),
      leafX "TIME" (numToStr (uvValue h.time)) ]

def exportMiscTree (m : Misc) : Xml :=
  .elem "MISC"
    [ leafX "NAME" (sanitize m.name),
      leafX "AMOUNT" (numToStr (jsDiv (uvValue m.amount) (some 1000))),
      leafX "TYPE" (sanitize m.mtype),
      leafX "USE" (sanitize m.use),
      leafX "TIME" (numToStr (uvValue m.time)) ]

def exportStyleTrees : Option StyleRef → List Xml
  | none => []
  | some s =>
      [ .elem "STYLE"
          [ leafX "NAME" (sanitize s.name),
            leafX "CATEGORY" (sanitize s.category),
            leafX "VERSION" "1" ] ]

def exportRecipeTree (r : Recipe) : Xml :=
  .elem "RECIPE"
    ([ leafX "NAME" (sanitize r.name),
       leafX "VERSION" "1",
       leafX "TYPE" (recipeTypeStr r) ]
     ++ exportStyleTrees r.style
     ++ [ leafX "BREWER" (sanitize (strOr r.author "brewbindr")),
          leafX "BATCH_SIZE" (numToStr (uvValue r.batch_size)),
          leafX "BOIL_TIME" (numToStr (uvValue r.boil_time)),
          leafX "EFFICIENCY" (numToStr r.efficiency),
          .elem "FERMENTABLES" (r.ingredients.fermentables.map exportFermTree),
          .elem "HOPS" (r.ingredients.hops.map exportHopTree) ]
     ++ (if r.ingredients.miscellaneous.length > 0 then
           [.elem "MISCELLANEOUS" (r.ingredients.miscellaneous.map exportMiscTree)]
         else []))

/-- The document tree of `exportToBeerXml r` (the leading `<?xml …?>`
declaration is not an element). -/
def exportXmlTree (r : Recipe) : Xml :=
  .elem "RECIPES" [exportRecipeTree r]

/-- The child list of the exported `RECIPE` element, spelled in cons form
(definitionally equal to the list in `exportRecipeTree`, see
`exportRecipeTree_eq`), named so the round-trip lemmas can walk it. -/
def recChildren (r : Recipe) : List Xml :=
  leafX "NAME" (sanitize r.name) ::
  leafX "VERSION" "1" ::
  leafX "TYPE" (recipeTypeStr r) ::
  ((exportStyleTrees r.style
    ++ [ leafX "BREWER" (sanitize (strOr r.author "brewbindr")),
         leafX "BATCH_SIZE" (numToStr (uvValue r.batch_size)),
         leafX "BOIL_TIME" (numToStr (uvValue r.boil_time)),
         leafX "EFFICIENCY" (numToStr r.efficiency),
         .elem "FERMENTABLES" (r.ingredients.fermentables.map exportFermTree),
         .elem "HOPS" (r.ingredients.hops.map exportHopTree) ])
   ++ (if r.ingredients.miscellaneous.length > 0 then
         [.elem "MISCELLANEOUS" (r.ingredients.miscellaneous.map exportMiscTree)]
       else []))

/-! ## Import reconciliation flow (`src/App.tsx`: `startImportFlow`,
`processQueue`, `linkIngredientsToLibrary`, `resolveConflict`)

The source drives this flow through React state setters plus a
`setTimeout(..., 0)` chain, always passing explicit snapshots
(`newRecipes`, `newLib`) to the next step; the embedding is that same
recursion with the state passed directly.  `user_id` stamping is cloud
plumbing and out of scope. -/

inductive ImportItem where
  | recipeItem (r : Recipe)
  | libItem (l : LibEntry)
  deriving Repr, DecidableEq

/-- Recipe duplicate test: case-insensitive name match. -/
def isDupRecipe (recipes : List Recipe) (r : Recipe) : Bool :=
  recipes.any (fun x => strLower x.name = strLower r.name)

/-- Library duplicate test: case-insensitive name match and same type. -/
def isDupLib (lib : List LibEntry) (l : LibEntry) : Bool :=
  lib.any (fun x => strLower x.name = strLower l.name ∧ x.ltype = l.ltype)

/-- `getLibId(name, type, props)`: find an existing entry by (type,
lowercased name); otherwise push a synthesized entry with a fresh id.
Returns the id and the possibly-grown library and id supply. -/
def getLibId (lib : List LibEntry) (supply : ℕ) (name ltype : String)
    (entry : ℕ → LibEntry) : ℕ × List LibEntry × ℕ :=
  match lib.find? (fun i => i.ltype = ltype ∧ strLower i.name = strLower name) with
  | some e => (e.id, lib, supply)
  | none => (supply, lib ++ [entry supply], supply + 1)

/-- The `yield` percentage synthesized when linking a fermentable:
`f.yield?.potential?.value ? Math.round((v - 1) / 0.046 * 100) : 75`. -/
def fermYieldProp (f : Fermentable) : JSNum :=
  if jsFalsy f.yieldPotential then some 75
  else match f.yieldPotential with
       | some p => some ((jsRound ((p - 1) / 0.046 * 100) : ℤ) : ℚ)
       | none => some 75

def linkFerm (f : Fermentable) (lib : List LibEntry) (n : ℕ) :
    Fermentable × List LibEntry × ℕ :=
  let (i, lib', n') := getLibId lib n f.name "fermentable" fun fresh =>
    { id := fresh, name := f.name, ltype := "fermentable",
      color := jsOr f.color (some 2), yld := fermYieldProp f }
  ({ f with libraryId := some i }, lib', n')

def linkHop (h : Hop) (lib : List LibEntry) (n : ℕ) :
    Hop × List LibEntry × ℕ :=
  let (i, lib', n') := getLibId lib n h.name "hop" fun fresh =>
    { id := fresh, name := h.name, ltype := "hop",
      alpha := jsOr h.alphaAcid (some 5) }
  ({ h with libraryId := some i }, lib', n')

def linkCulture (c : Culture) (lib : List LibEntry) (n : ℕ) :
    Culture × List LibEntry × ℕ :=
  let (i, lib', n') := getLibId lib n c.name "culture" fun fresh =>
    { id := fresh, name := c.name, ltype := "culture",
      attenuation := jsOr c.attenuation (some 75),
      form := some (strOr c.form "dry") }
  ({ c with libraryId := some i }, lib', n')

/-- Thread the library and id supply through a left-to-right map, the way
`getLibId` mutates `tempLib` in place. -/
def linkList {α : Type} (step : α → List LibEntry → ℕ → α × List LibEntry × ℕ) :
    List α → List LibEntry → ℕ → List α × List LibEntry × ℕ
  | [], lib, n => ([], lib, n)
  | x :: xs, lib, n =>
      let (x', lib', n') := step x lib n
      let (xs', lib'', n'') := linkList step xs lib' n'
      (x' :: xs', lib'', n'')

/-- `linkIngredientsToLibrary(recipe, tempLib)`: resolve or create a
library entry for each fermentable, hop and culture (in that order),
recording the `libraryId` back-references. -/
def linkIngredientsToLibrary (r : Recipe) (lib : List LibEntry) (n : ℕ) :
    Recipe × List LibEntry × ℕ :=
  let (fs, lib1, n1) := linkList linkFerm r.ingredients.fermentables lib n
  let (hs, lib2, n2) := linkList linkHop r.ingredients.hops lib1 n1
  let (cs, lib3, n3) := linkList linkCulture r.ingredients.cultures lib2 n2
  ({ r with ingredients :=
      { r.ingredients with fermentables := fs, hops := hs, cultures := cs } },
   lib3, n3)

/-- Where the reconciliation run ends up: paused on a duplicate library
item awaiting a user decision (with the committed state so far and the
unadvanced queue), or finished with the queue exhausted (status `idle`). -/
inductive FlowOutcome where
  | paused (dup : ImportItem) (queue : List ImportItem)
      (recipes : List Recipe) (library : List LibEntry) (supply : ℕ)
  | finished (recipes : List Recipe) (library : List LibEntry) (supply : ℕ)
  deriving Repr, DecidableEq

/-- `processQueue(currentQueue, currentRecipes, currentLib)`: head-first,
strictly sequential processing.  Duplicate recipes are skipped silently;
duplicate library items pause the flow; non-duplicates are committed (a
recipe via ingredient linking, a library item with a fresh id) before the
next item is examined. -/
def processQueue : List ImportItem → List Recipe → List LibEntry → ℕ →
    FlowOutcome
  | [], recipes, lib, n => .finished recipes lib n
  | next :: rest, recipes, lib, n =>
      match next with
      | .recipeItem r =>
          if isDupRecipe recipes r then processQueue rest recipes lib n
          else
            let (linked, lib', n') := linkIngredientsToLibrary r lib n
            processQueue rest (recipes ++ [linked]) lib' n'
      | .libItem l =>
          if isDupLib lib l then .paused next (next :: rest) recipes lib n
          else processQueue rest recipes (lib ++ [{ l with id := n }]) (n + 1)

inductive ConflictAction where
  | cancel
  | skip
  | overwrite
  | copy
  deriving Repr, DecidableEq

/-- The state update `resolveConflict` computes before resuming the
queue (`updatedRecipes` / `updatedLib`); `skip` leaves both unchanged. -/
def applyResolution (action : ConflictAction) (dup : ImportItem)
    (recipes : List Recipe) (lib : List LibEntry) (n : ℕ) :
    List Recipe × List LibEntry × ℕ :=
  match action, dup with
  | .overwrite, .recipeItem r =>
      let (linked, lib', n') := linkIngredientsToLibrary r lib n
      (recipes.map fun x =>
          if strLower x.name = strLower linked.name then { linked with id := x.id }
          else x,
       lib', n')
  | .overwrite, .libItem l =>
      (recipes,
       lib.map fun x =>
         if strLower x.name = strLower l.name ∧ x.ltype = l.ltype then
           { l with id := x.id }
         else x,
       n)
  | .copy, .recipeItem r =>
      let (linked, lib', n') :=
        linkIngredientsToLibrary { r with name := r.name ++ " (Copy)" } lib n
      (recipes ++ [{ linked with id := some n' }], lib', n' + 1)
  | .copy, .libItem l =>
      (recipes, lib ++ [{ l with name := l.name ++ " (Copy)", id := n }], n + 1)
  | _, _ => (recipes, lib, n)

/-- `resolveConflict(action)` from the paused state: `cancel` discards the
remaining queue (already-committed state stays); every other action
applies its update and resumes `processQueue` on the rest of the queue. -/
def resolveConflict (action : ConflictAction) (dup : ImportItem)
    (queue : List ImportItem) (recipes : List Recipe) (lib : List LibEntry)
    (n : ℕ) : FlowOutcome :=
  match action with
  | .cancel => .finished recipes lib n
  | _ =>
      let (r', l', n') := applyResolution action dup recipes lib n
      processQueue (queue.drop 1) r' l' n'

/-! ## Specification-side definitions

These follow the wording of the spec's claims (not the source), for
comparison with the embedded source functions. -/

/-- Spec: batch size converted to liters — liters kept, gallons
multiplied by 3.78541 (the spec's data model admits only these two batch
units); 0 when the batch size or its value is absent. -/
def specBatchLiters (r : Recipe) : ℚ :=
  match r.batch_size with
  | none => 0
  | some b =>
      match b.value with
      | none => 0
      | some v => if normalizeUnit (some b.unit) = "gallons" then v * 3.78541 else v

/-- Spec: the denominator is treated as 1 when batch size is 0 or
absent. -/
def specDenom (r : Recipe) : ℚ :=
  if specBatchLiters r = 0 then 1 else specBatchLiters r

/-- Spec: fermentable amounts converted to kilograms (the data model's
mass units: kilograms, pounds, grams, ounces). -/
def specFermKg (f : Fermentable) : ℚ :=
  match f.amount with
  | none => 0
  | some a =>
      let v := a.value.getD 0
      let u := normalizeUnit (some a.unit)
      if u = "pounds" then v * 0.453592
      else if u = "grams" then v / 1000
      else if u = "ounces" then v * 0.0283495
      else v

/-- Spec: absent yield-potential defaults to 1.037. -/
def specPotential (f : Fermentable) : ℚ := f.yieldPotential.getD 1.037

/-- Spec: brewhouse efficiency, with 0/absent falling back to 75 (claim
C10), as a fraction. -/
def specEffFrac (r : Recipe) : ℚ :=
  (match r.efficiency with
   | none => 75
   | some e => if e = 0 then 75 else e) / 100

/-- Spec: total gravity points — the sum over fermentables of
`weightKg * (potential - 1) * 1000 * 8.3454 * efficiencyFraction /
batchSizeLiters`. -/
def specTotalPoints (r : Recipe) : ℚ :=
  (r.ingredients.fermentables.map fun f =>
      specFermKg f * ((specPotential f - 1) * 1000 * 8.3454) * specEffFrac r /
        specDenom r).sum

/-- Spec: priming-sugar scale factor per sugar type. -/
def specSugarFactor (sugarType : String) : ℚ :=
  if sugarType = "glucose" then 1.15
  else if sugarType = "dme" then 1.4
  else 1

/-- A unit string matched by none of `normalizeUnit`'s rules (after
lowercasing and trimming). -/
def unitUnrecognized (s : String) : Prop :=
  s ≠ "" ∧
  (let u := strTrim (strLower s)
   ¬ (strStartsWith u "kg" ∨ strStartsWith u "kilo") ∧
   ¬ (strStartsWith u "lb" ∨ strStartsWith u "pound") ∧
   ¬ (u = "g" ∨ u = "gram" ∨ u = "grams") ∧
   ¬ (u = "gr" ∨ u = "grain" ∨ u = "grains") ∧
   ¬ (strStartsWith u "oz" ∨ strStartsWith u "ounce") ∧
   ¬ (strStartsWith u "l" ∧ ¬ strStartsWith u "lb") ∧
   ¬ strStartsWith u "gal" ∧
   ¬ strStartsWith u "min")

instance (s : String) : Decidable (unitUnrecognized s) := by
  unfold unitUnrecognized
  infer_instance

/-- A number that the export/import pipeline transports faithfully: its
JS decimal rendering, entity-decoded (a no-op on digits), re-parses to
itself.  This is the rational-arithmetic shape of the claim's "within
floating-point tolerance". -/
def rtNum (v : ℚ) : Prop :=
  getNumStr (decodeEntities (renderQ v)) = some v

instance (v : ℚ) : Decidable (rtNum v) := by
  unfold rtNum
  infer_instance

/-- One of the exporter's five escaped characters. -/
def isSpecialChar (c : Char) : Bool :=
  c = '&' ∨ c = '<' ∨ c = '>' ∨ c = '"' ∨ c = '\''

/-! ## Concrete fixtures for witnesses and counterexamples -/

/-- A document whose `BATCH_SIZE` content is not a number. -/
def garbledDoc : Xml :=
  Xml.elem "RECIPES" [Xml.elem "RECIPE" [Xml.elem "BATCH_SIZE" [Xml.text "abc"]]]

/-- A document with top-level `FERMENTABLE`, `HOP` and `YEAST` library
declarations outside any `RECIPE`. -/
def globalsDoc : Xml :=
  Xml.elem "BREW_LIBRARY"
    [ Xml.elem "FERMENTABLE" [Xml.elem "NAME" [Xml.text "Pale Malt"]],
      Xml.elem "HOP" [Xml.elem "NAME" [Xml.text "Saaz"]],
      Xml.elem "YEAST" [Xml.elem "NAME" [Xml.text "US-05"]] ]

/-- A document with a top-level `STYLE`, `MISC` and `MASH` next to a
recipe-scoped `STYLE`. -/
def mixedScopeDoc : Xml :=
  Xml.elem "DOC"
    [ Xml.elem "STYLE" [Xml.elem "NAME" [Xml.text "IPA"]],
      Xml.elem "MISC" [Xml.elem "NAME" [Xml.text "Irish Moss"]],
      Xml.elem "MASH" [Xml.elem "NAME" [Xml.text "Single Infusion"]],
      Xml.elem "RECIPE" [Xml.elem "STYLE" [Xml.elem "NAME" [Xml.text "Stout"]]] ]

/-- The claim's single-fermentable recipe: 5 kg at potential 1.037 in a
20 L batch at 75 % brewhouse efficiency. -/
def c1Recipe : Recipe where
  name := "Single Malt"
  rtype := "all_grain"
  author := "brewer"
  batch_size := some ⟨"liters", some 20⟩
  ingredients :=
    { fermentables :=
        [{ name := "Pale", ftype := "grain", amount := some ⟨"kilograms", some 5⟩,
           yieldPotential := some 1.037, color := some 3 }],
      hops := [], cultures := [] }
  efficiency := some 75
  boil_time := some ⟨"minutes", some 60⟩

/-- A recipe whose stored brewhouse efficiency is 0 (as the importer
leaves it when the `EFFICIENCY` tag is missing). -/
def eff0Recipe : Recipe := { c1Recipe with efficiency := some 0 }

/-- A round-trip fixture in canonical units. -/
def c4Recipe : Recipe where
  name := "Round & Trip"
  rtype := "all_grain"
  author := "brewer"
  batch_size := some ⟨"liters", some 20⟩
  ingredients :=
    { fermentables :=
        [{ name := "Pale", ftype := "grain", amount := some ⟨"kilograms", some 5⟩,
           yieldPotential := some 1.037, color := some 3 }],
      hops :=
        [{ name := "Saaz", amount := some ⟨"grams", some 50⟩,
           alphaAcid := some (7/2), use := "boil",
           time := some ⟨"minutes", some 60⟩ }],
      cultures := [] }
  efficiency := some 75
  boil_time := some ⟨"minutes", some 60⟩

/-- An export fixture whose free-text fields hold XML special
characters. -/
def c7Recipe : Recipe := { c4Recipe with name := "Wit & <Wisdom>" }

/-- Imported library ingredient fixtures for the reconciliation flow. -/
def cascadeImport : LibEntry := { id := 99, name := "Cascade", ltype := "hop" }

def cascadeExisting : LibEntry := { id := 0, name := "cascade", ltype := "hop" }

/-! ## Shared helper lemmas -/

theorem getNumStr_empty : getNumStr "" = some 0 := by
  simp [getNumStr, jsParseFloat, digitsVal, isDigitChar]

theorem getNum_of_no_tag (e : Xml) (tag : String) (h : descTag tag e = []) :
    getNum (some e) tag = some 0 := by
  unfold getNum
  rw [show (some e).bind (fun x => (descTag tag x).head?) = none by simp [h]]
  exact getNumStr_empty

theorem getVal_of_no_tag (e : Xml) (tag : String) (h : descTag tag e = []) :
    getVal (some e) tag = "" := by
  simp [getVal, h]


theorem jsOr_some_zero (v : ℚ) : jsOr (some v) (some 0) = some v := by
  unfold jsOr jsFalsy
  by_cases h : v = 0 <;> simp [h]

theorem jsAdd_some_some (a b : ℚ) : jsAdd (some a) (some b) = some (a + b) := rfl

theorem jsSub_some_some (a b : ℚ) : jsSub (some a) (some b) = some (a - b) := rfl

theorem jsMul_some_some (a b : ℚ) : jsMul (some a) (some b) = some (a * b) := rfl

theorem jsDiv_some_some (a : ℚ) {b : ℚ} (hb : b ≠ 0) :
    jsDiv (some a) (some b) = some (a / b) := by
  simp [jsDiv, hb]

theorem specDenom_ne_zero (r : Recipe) : specDenom r ≠ 0 := by
  unfold specDenom
  split
  · norm_num
  · assumption

theorem foldl_jsAdd_some {α : Type} (F : α → JSNum) (g : α → ℚ) :
    ∀ (l : List α), (∀ x ∈ l, F x = some (g x)) → ∀ c : ℚ,
      l.foldl (fun acc x => jsAdd acc (F x)) (some c) = some (c + (l.map g).sum)
  | [], _, c => by simp
  | x :: xs, h, c => by
    have hx := h x (List.mem_cons_self x xs)
    have ih := foldl_jsAdd_some F g xs
      (fun y hy => h y (List.mem_cons_of_mem x hy)) (c + g x)
    rw [List.foldl_cons, hx,
      show jsAdd (some c) (some (g x)) = some (c + g x) from rfl, ih,
      List.map_cons, List.sum_cons]
    congr 1
    ring

/-! ## Claim C1 (confirmed) -/

/-- C1: for every recipe whose batch size is absent or declared in
liters/gallons with a finite value, and whose fermentables all carry a
finite amount in a mass unit and no stored-zero yield potential (JS `||`
also maps a stored 0 to the default), `calculateRecipeStats` computes
`og = 1 + totalPoints/1000` with `totalPoints` the claim's sum
`weightKg * (potential−1) * 1000 * 8.3454 * efficiencyFraction /
batchSizeLiters` (amounts converted to kilograms, gallons × 3.78541,
absent potential defaulting to 1.037, denominator 1 when the batch size
is 0 or absent). -/
theorem calculateRecipeStats_og_formula :
    ∀ r : Recipe,
      (r.batch_size = none ∨
        ∃ b v, r.batch_size = some b ∧ b.value = some v ∧
          (normalizeUnit (some b.unit) = "liters" ∨
           normalizeUnit (some b.unit) = "gallons")) →
      (∀ f ∈ r.ingredients.fermentables,
        (∃ a v, f.amount = some a ∧ a.value = some v ∧
          (normalizeUnit (some a.unit) = "kilograms" ∨
           normalizeUnit (some a.unit) = "pounds" ∨
           normalizeUnit (some a.unit) = "grams" ∨
           normalizeUnit (some a.unit) = "ounces")) ∧
        f.yieldPotential ≠ some 0) →
      (calculateRecipeStats r).og = some (1 + specTotalPoints r / 1000) := by
  intro r hb hf
  have h1 : (if normalizeUnit ((r.batch_size).map (·.unit)) = "liters"
        then jsOr ((r.batch_size).bind (·.value)) (some 0)
        else jsMul (jsOr ((r.batch_size).bind (·.value)) (some 0)) (some 3.78541)) =
      some (specBatchLiters r) := by
    rcases hb with h | ⟨b, v, hbe, hv, hu⟩
    · simp [specBatchLiters, h, jsOr, jsFalsy, jsMul]
    · rcases hu with hu | hu
      · rw [hbe]
        simp [specBatchLiters, hbe, hv, hu, jsOr_some_zero]
      · rw [hbe]
        simp [specBatchLiters, hbe, hv, hu, jsOr_some_zero, jsMul]
  have h2 : jsOr (some (specBatchLiters r)) (some 1) = some (specDenom r) := by
    unfold specDenom jsOr jsFalsy
    by_cases h : specBatchLiters r = 0 <;> simp [h]
  have h3 : jsDiv (jsOr r.efficiency (some 75)) (some 100) = some (specEffFrac r) := by
    rcases he : r.efficiency with _ | e
    · rw [show jsOr none (some 75) = some 75 from rfl,
        jsDiv_some_some _ (show (100 : ℚ) ≠ 0 by norm_num)]
      simp [specEffFrac, he]
    · by_cases h : e = 0
      · rw [show jsOr (some e) (some 75) = some 75 by simp [jsOr, jsFalsy, h],
          jsDiv_some_some _ (show (100 : ℚ) ≠ 0 by norm_num)]
        simp [specEffFrac, he, h]
      · rw [show jsOr (some e) (some 75) = some e by simp [jsOr, jsFalsy, h],
          jsDiv_some_some _ (show (100 : ℚ) ≠ 0 by norm_num)]
        simp [specEffFrac, he, h]
  have h4 : ∀ f ∈ r.ingredients.fermentables,
      fermPoints (some (specEffFrac r)) (some (specBatchLiters r)) f =
        some (specFermKg f * ((specPotential f - 1) * 1000 * 8.3454) *
          specEffFrac r / specDenom r) := by
    intro f hmem
    obtain ⟨⟨a, v, ha, hv, hu⟩, hpot⟩ := hf f hmem
    have hw : fermWeightKg a = some (specFermKg f) := by
      unfold fermWeightKg specFermKg
      rw [ha]
      simp only [hv, Option.getD_some]
      rcases hu with hu | hu | hu | hu <;> rw [hu] <;>
        simp [jsMul, jsDiv_some_some _ (show (1000 : ℚ) ≠ 0 by norm_num)]
    have hp : jsOr f.yieldPotential (some 1.037) = some (specPotential f) := by
      rcases hy : f.yieldPotential with _ | p
      · simp [jsOr, jsFalsy, specPotential, hy]
      · rw [hy] at hpot
        have hne : p ≠ 0 := fun hz => hpot (by rw [hz])
        simp [jsOr, jsFalsy, specPotential, hy, hne]
    unfold fermPoints
    simp only [ha, hw, hp, h2, jsSub_some_some, jsMul_some_some]
    rw [jsDiv_some_some _ (specDenom_ne_zero r)]
  unfold calculateRecipeStats
  simp only [h1, h3]
  rw [foldl_jsAdd_some _ _ r.ingredients.fermentables h4 0]
  rw [jsDiv_some_some _ (show (1000 : ℚ) ≠ 0 by norm_num), jsAdd_some_some,
    specTotalPoints]
  norm_num

/-- The claim's instance: one 5 kg fermentable of potential 1.037 in a
20 L batch at 75 % efficiency gives
`og = 1 + (5·37·8.3454·0.75/20)/1000`. -/
theorem calculateRecipeStats_og_formula_witness :
    (calculateRecipeStats c1Recipe).og =
      some (1 + 5 * 37 * 8.3454 * 0.75 / 20 / 1000) := by
  have h := calculateRecipeStats_og_formula c1Recipe
    (Or.inr ⟨⟨"liters", some 20⟩, 20, rfl, rfl, Or.inl (by decide)⟩)
    (by
      intro f hf
      simp only [c1Recipe] at hf
      rw [List.mem_singleton] at hf
      subst hf
      exact ⟨⟨⟨"kilograms", some 5⟩, 5, rfl, rfl, Or.inl (by decide)⟩, by norm_num⟩)
  rw [h]
  have hk : normalizeUnit (some "kilograms") = "kilograms" := by decide
  have hp : ¬("kilograms" = "pounds") := by decide
  have hgr : ¬("kilograms" = "grams") := by decide
  have hoz : ¬("kilograms" = "ounces") := by decide
  have hg : ¬(normalizeUnit (some "liters") = "gallons") := by decide
  norm_num [specTotalPoints, c1Recipe, specFermKg, specPotential, specEffFrac,
    specDenom, specBatchLiters, hk, hp, hgr, hoz, hg]

/-! ## Claim C5 (corrected) -/

/-- C5 (amended): the importer is total (it is a Lean function, mirroring
that `DOMParser` and `parseFloat` never throw), and an **absent** tag
yields the defaults: `""` for a text field and `0` for a numeric field.
The claim's further assertion that a *garbled* tag also yields `0` is
refuted by `parseBeerXml_garbled_numeric_counterexample`: `parseFloat` of
non-numeric text is `NaN`, which the importer stores as-is. -/
theorem parseBeerXml_missing_tag_defaults :
    ∀ (e : Xml) (tag : String), descTag tag e = [] →
      getVal (some e) tag = "" ∧ getNum (some e) tag = some 0 :=
  fun e tag h => ⟨getVal_of_no_tag e tag h, getNum_of_no_tag e tag h⟩

theorem parseBeerXml_missing_tag_defaults_witness :
    descTag "BATCH_SIZE" (Xml.elem "RECIPE" []) = [] ∧
    getVal (some (Xml.elem "RECIPE" [])) "BATCH_SIZE" = "" ∧
    getNum (some (Xml.elem "RECIPE" [])) "BATCH_SIZE" = some 0 :=
  ⟨rfl, parseBeerXml_missing_tag_defaults (Xml.elem "RECIPE" []) "BATCH_SIZE" rfl⟩

/-- C5 (counterexample): on a document whose `BATCH_SIZE` holds the
non-numeric text `"abc"`, the parsed recipe's batch-size value is the
non-finite marker (JS `NaN`), not the claimed default `0`. -/
theorem parseBeerXml_garbled_numeric_counterexample :
    ((parseBeerXml garbledDoc).recipes.map (·.batch_size)) =
      [some ⟨"liters", none⟩] ∧
    ((parseBeerXml garbledDoc).recipes.map (·.batch_size)) ≠
      [some ⟨"liters", some 0⟩] := by
  decide

/-! ## Claim C8 (corrected) -/

/-- C8 (amended): `normalizeUnit` maps `"Kg"`, `"  kilograms "` and
`"KILOGRAM"` to the same canonical token; `"lb"` yields the pounds token
and is not classified as liters; absent input yields `""`; and an
unrecognized unit string falls through **lowercased and trimmed** (the
claim's "passes through unchanged" is refuted by
`normalizeUnit_passthrough_counterexample`; a string that is already
lowercase and trimmed does pass through unchanged). -/
theorem normalizeUnit_contract :
    (normalizeUnit (some "Kg") = "kilograms" ∧
     normalizeUnit (some "  kilograms ") = "kilograms" ∧
     normalizeUnit (some "KILOGRAM") = "kilograms") ∧
    (normalizeUnit (some "lb") = "pounds" ∧ normalizeUnit (some "lb") ≠ "liters") ∧
    normalizeUnit none = "" ∧
    ∀ s : String, unitUnrecognized s → normalizeUnit (some s) = strTrim (strLower s) := by
  refine ⟨⟨by decide, by decide, by decide⟩, ⟨by decide, by decide⟩, rfl, ?_⟩
  intro s hs
  obtain ⟨h0, h1, h2, h3, h4, h5, h6, h7, h8⟩ := hs
  simp only [normalizeUnit]
  rw [if_neg h0, if_neg h1, if_neg h2, if_neg h3, if_neg h4, if_neg h5, if_neg h6,
    if_neg h7, if_neg h8]

theorem normalizeUnit_contract_witness :
    unitUnrecognized "zz9" ∧ normalizeUnit (some "zz9") = strTrim (strLower "zz9") :=
  ⟨by decide, normalizeUnit_contract.2.2.2 "zz9" (by decide)⟩

/-- C8 (counterexample): the unrecognized unit string `"FOO"` does not
pass through unchanged — it comes back lowercased. -/
theorem normalizeUnit_passthrough_counterexample :
    normalizeUnit (some "FOO") = "foo" ∧ normalizeUnit (some "FOO") ≠ "FOO" := by
  decide

/-! ## Claim C9 (confirmed) -/

/-- C9: for every target CO₂ volume, positive batch volume, temperature
(in whole °C, keeping the power rational) and recognized sugar type,
`calculatePrimingSugar` returns
`round(max(0, targetCO2 − 1.57·0.97^tempC) · 4 · liters · factor)` with
factor 1 for table sugar, 1.15 for glucose and 1.4 for dried malt
extract. -/
theorem calculatePrimingSugar_formula :
    ∀ (targetCO2 liters : ℚ) (tempC : ℕ) (sugarType : String),
      0 < liters →
      sugarType = "table_sugar" ∨ sugarType = "glucose" ∨ sugarType = "dme" →
      calculatePrimingSugar targetCO2 liters tempC sugarType =
        jsRound (max 0 (targetCO2 - 1.57 * (0.97 : ℚ) ^ tempC) * 4 * liters *
          specSugarFactor sugarType) := by
  intro t l temp st hl hst
  unfold calculatePrimingSugar specSugarFactor
  rw [if_neg (not_le.mpr hl)]
  rcases hst with h | h | h <;> subst h <;> simp

/-- The spec's worked example: 2.4 volumes, 20 L, 20 °C, table sugar →
124 g. -/
theorem calculatePrimingSugar_formula_witness :
    calculatePrimingSugar 2.4 20 20 "table_sugar" = 124 := by
  rw [calculatePrimingSugar_formula 2.4 20 20 "table_sugar" (by norm_num)
    (Or.inl rfl)]
  have h1 : (0 : ℚ) ⊔ (2.4 - 1.57 * 0.97 ^ 20) = 2.4 - 1.57 * 0.97 ^ 20 :=
    max_eq_right (by norm_num)
  rw [jsRound, h1, show specSugarFactor "table_sugar" = 1 from rfl]
  rw [Int.floor_eq_iff]
  norm_num

/-! ## Claim C10 (confirmed) -/

/-- C10: a recipe whose stored brewhouse efficiency is 0 or absent is
calculated exactly as if it were 75 %; and the importer stores 0 for a
recipe element with no `EFFICIENCY` descendant — so every such imported
recipe is computed at 75 %, not 0 %. -/
theorem efficiency_default_75 :
    (∀ r : Recipe, r.efficiency = none ∨ r.efficiency = some 0 →
        calculateRecipeStats r =
          calculateRecipeStats { r with efficiency := some 75 }) ∧
    (∀ (i : ℕ) (e : Xml), descTag "EFFICIENCY" e = [] →
        (parseRecipeEl i e).efficiency = some 0) := by
  constructor
  · intro r h
    have heff : jsOr r.efficiency (some 75) = jsOr (some 75) (some 75) := by
      rcases h with h | h <;> rw [h] <;> decide
    simp only [calculateRecipeStats, heff]
  · intro i e h
    exact getNum_of_no_tag e "EFFICIENCY" h

theorem efficiency_default_75_witness :
    calculateRecipeStats eff0Recipe =
      calculateRecipeStats { eff0Recipe with efficiency := some 75 } ∧
    (parseRecipeEl 0 (Xml.elem "RECIPE" [Xml.elem "NAME" [Xml.text "x"]])).efficiency =
      some 0 :=
  ⟨efficiency_default_75.1 eff0Recipe (Or.inr rfl),
   efficiency_default_75.2 0 (Xml.elem "RECIPE" [Xml.elem "NAME" [Xml.text "x"]]) rfl⟩

/-! ## Claim C3 (confirmed) -/

/-- C3: the queue is strictly sequential — committing the first library
item (appending it with a fresh id) happens before the second item's
duplicate check, so for a batch of exactly two library ingredients with
the same (lowercased name, type) and no collision with the pre-existing
library, the flow commits the first and pauses exactly once, on the
second (the second conjunct: any non-cancel resolution then drains the
rest of the queue to the `finished` state with no further pause). -/
theorem processQueue_sequential_duplicates :
    ∀ (i1 i2 : LibEntry) (rec0 : List Recipe) (lib0 : List LibEntry) (n : ℕ),
      strLower i1.name = strLower i2.name → i1.ltype = i2.ltype →
      (∀ l ∈ lib0, ¬ (strLower l.name = strLower i1.name ∧ l.ltype = i1.ltype)) →
      (processQueue [.libItem i1, .libItem i2] rec0 lib0 n =
        .paused (.libItem i2) [.libItem i2] rec0
          (lib0 ++ [{ i1 with id := n }]) (n + 1)) ∧
      (∀ a : ConflictAction, a ≠ .cancel →
        ∃ lib' n', resolveConflict a (.libItem i2) [.libItem i2] rec0
            (lib0 ++ [{ i1 with id := n }]) (n + 1) = .finished rec0 lib' n') := by
  intro i1 i2 rec0 lib0 n hname htype hlib
  have hd1 : isDupLib lib0 i1 = false := by
    rw [isDupLib, List.any_eq_false]
    intro x hx
    simpa using fun h1 h2 => hlib x hx ⟨h1, h2⟩
  have hd2 : isDupLib (lib0 ++ [{ i1 with id := n }]) i2 = true := by
    rw [isDupLib, List.any_eq_true]
    refine ⟨{ i1 with id := n }, by simp, ?_⟩
    simp [hname, htype]
  constructor
  · simp [processQueue, hd1, hd2]
  · intro a ha
    cases a
    · exact absurd rfl ha
    · exact ⟨_, _, rfl⟩
    · exact ⟨_, _, rfl⟩
    · exact ⟨_, _, rfl⟩

theorem processQueue_sequential_duplicates_witness :
    processQueue [.libItem cascadeImport, .libItem cascadeImport] [] [] 0 =
      .paused (.libItem cascadeImport) [.libItem cascadeImport] []
        [{ cascadeImport with id := 0 }] 1 :=
  (processQueue_sequential_duplicates cascadeImport cascadeImport [] [] 0 rfl rfl (by simp)).1

/-! ## Claim C6 (corrected) -/

/-- C6 (amended): the `copy` action inserts the duplicate as a **new**
entry, appended after the untouched existing entries, with the name
suffix `" (Copy)"` and a fresh id; choosing `copy` twice for two imported
ingredients with the same (name, type) yields two distinct new entries
with distinct ids but **identical** names — the suffix is applied once
and never further disambiguated, so the claim's "distinguishable names"
fails (see `resolveConflict_copy_names_counterexample`). -/
theorem resolveConflict_copy_semantics :
    ∀ (e i1 i2 : LibEntry) (rec0 : List Recipe) (lib0 : List LibEntry) (n : ℕ),
      e ∈ lib0 →
      strLower e.name = strLower i1.name → e.ltype = i1.ltype →
      i1.name = i2.name → i1.ltype = i2.ltype →
      (processQueue [.libItem i1, .libItem i2] rec0 lib0 n =
        .paused (.libItem i1) [.libItem i1, .libItem i2] rec0 lib0 n) ∧
      (resolveConflict .copy (.libItem i1) [.libItem i1, .libItem i2] rec0 lib0 n =
        .paused (.libItem i2) [.libItem i2] rec0
          (lib0 ++ [{ i1 with name := i1.name ++ " (Copy)", id := n }]) (n + 1)) ∧
      (resolveConflict .copy (.libItem i2) [.libItem i2] rec0
          (lib0 ++ [{ i1 with name := i1.name ++ " (Copy)", id := n }]) (n + 1) =
        .finished rec0
          (lib0 ++ [{ i1 with name := i1.name ++ " (Copy)", id := n }] ++
            [{ i2 with name := i2.name ++ " (Copy)", id := n + 1 }]) (n + 2)) ∧
      ({ i1 with name := i1.name ++ " (Copy)", id := n } : LibEntry).name =
        ({ i2 with name := i2.name ++ " (Copy)", id := n + 1 } : LibEntry).name ∧
      ({ i1 with name := i1.name ++ " (Copy)", id := n } : LibEntry).id ≠
        ({ i2 with name := i2.name ++ " (Copy)", id := n + 1 } : LibEntry).id := by
  intro e i1 i2 rec0 lib0 n hmem hename hetype h12name h12type
  have hd1 : isDupLib lib0 i1 = true := by
    rw [isDupLib, List.any_eq_true]
    exact ⟨e, hmem, by simp [hename, hetype]⟩
  have hd2 : isDupLib (lib0 ++ [{ i1 with name := i1.name ++ " (Copy)", id := n }])
      i2 = true := by
    rw [isDupLib, List.any_eq_true]
    refine ⟨e, by simp [hmem], ?_⟩
    simp [hename, hetype, ← h12name, ← h12type]
  refine ⟨by simp [processQueue, hd1], ?_, ?_, by simp [h12name], by simp⟩
  · show processQueue [.libItem i2] rec0
        (lib0 ++ [{ i1 with name := i1.name ++ " (Copy)", id := n }]) (n + 1) = _
    simp [processQueue, hd2]
  · rfl

theorem resolveConflict_copy_semantics_witness :
    (processQueue [.libItem cascadeImport, .libItem cascadeImport] []
        [cascadeExisting] 1 =
      .paused (.libItem cascadeImport) [.libItem cascadeImport, .libItem cascadeImport]
        [] [cascadeExisting] 1) ∧
    (resolveConflict .copy (.libItem cascadeImport)
        [.libItem cascadeImport, .libItem cascadeImport] [] [cascadeExisting] 1 =
      .paused (.libItem cascadeImport) [.libItem cascadeImport] []
        ([cascadeExisting] ++
          [{ cascadeImport with name := "Cascade" ++ " (Copy)", id := 1 }]) 2) ∧
    (resolveConflict .copy (.libItem cascadeImport) [.libItem cascadeImport] []
        ([cascadeExisting] ++
          [{ cascadeImport with name := "Cascade" ++ " (Copy)", id := 1 }]) 2 =
      .finished []
        ([cascadeExisting] ++ [{ cascadeImport with name := "Cascade" ++ " (Copy)", id := 1 }] ++
          [{ cascadeImport with name := "Cascade" ++ " (Copy)", id := 2 }]) 3) ∧
    ({ cascadeImport with name := "Cascade" ++ " (Copy)", id := 1 } : LibEntry).name =
      ({ cascadeImport with name := "Cascade" ++ " (Copy)", id := 2 } : LibEntry).name ∧
    ({ cascadeImport with name := "Cascade" ++ " (Copy)", id := 1 } : LibEntry).id ≠
      ({ cascadeImport with name := "Cascade" ++ " (Copy)", id := 2 } : LibEntry).id :=
  resolveConflict_copy_semantics cascadeExisting cascadeImport cascadeImport [] [cascadeExisting] 1
    (List.mem_singleton.mpr rfl) (by decide) rfl rfl rfl

/-- C6 (counterexample): with `cascade` already in the library, copying
both imported `Cascade` hops produces two entries both named exactly
`"Cascade (Copy)"` — equal, not distinguishable. -/
theorem resolveConflict_copy_names_counterexample :
    resolveConflict .copy (.libItem cascadeImport)
        [.libItem cascadeImport, .libItem cascadeImport] [] [cascadeExisting] 1 =
      .paused (.libItem cascadeImport) [.libItem cascadeImport] []
        [cascadeExisting, { cascadeImport with name := "Cascade (Copy)", id := 1 }] 2 ∧
    resolveConflict .copy (.libItem cascadeImport) [.libItem cascadeImport] []
        [cascadeExisting, { cascadeImport with name := "Cascade (Copy)", id := 1 }] 2 =
      .finished []
        [cascadeExisting, { cascadeImport with name := "Cascade (Copy)", id := 1 },
          { cascadeImport with name := "Cascade (Copy)", id := 2 }] 3 ∧
    ({ cascadeImport with name := "Cascade (Copy)", id := 1 } : LibEntry).name =
      ({ cascadeImport with name := "Cascade (Copy)", id := 2 } : LibEntry).name := by
  decide

/-! ## Claim C2 (corrected) -/

/-- C2 (counterexample): a document with top-level `FERMENTABLE`, `HOP`
and `YEAST` elements (their parent is `BREW_LIBRARY`, not `RECIPE`)
nevertheless yields **empty** `fermentables`, `hops` and `cultures`
result lists — `parseBeerXml` has no global pass for these element
kinds, refuting the claim that the corresponding lists are non-empty. -/
theorem parseBeerXml_global_ingredients_counterexample :
    ((docTagWithParent globalsDoc "FERMENTABLE").map (fun pe => pe.1)) =
      [some "BREW_LIBRARY"] ∧
    ((docTagWithParent globalsDoc "HOP").map (fun pe => pe.1)) =
      [some "BREW_LIBRARY"] ∧
    ((docTagWithParent globalsDoc "YEAST").map (fun pe => pe.1)) =
      [some "BREW_LIBRARY"] ∧
    (parseBeerXml globalsDoc).fermentables = [] ∧
    (parseBeerXml globalsDoc).hops = [] ∧
    (parseBeerXml globalsDoc).cultures = [] := by
  decide

/-- C2 (amended): `parseBeerXml` returns every document-global `STYLE`,
`MISC` and `MASH` declaration (immediate parent not a `RECIPE`; for
`MISC` also not the `MISCELLANEOUS` wrapper) in the corresponding result
list, but the `fermentables`, `hops` and `cultures` lists of the
`ImportResult` are **always empty**: the importer has no document-global
pass for those ingredient kinds. -/
theorem parseBeerXml_global_pass :
    ∀ doc : Xml,
      (parseBeerXml doc).fermentables = [] ∧
      (parseBeerXml doc).hops = [] ∧
      (parseBeerXml doc).cultures = [] ∧
      (∀ pe ∈ elemsWithParent none doc, pe.2.tagName = "STYLE" →
        ¬ pe.1 = some "RECIPE" →
        parseGlobalStyle pe.2 ∈ (parseBeerXml doc).styles) ∧
      (∀ pe ∈ elemsWithParent none doc, pe.2.tagName = "MISC" →
        ¬ (pe.1 = some "RECIPE" ∨ pe.1 = some "MISCELLANEOUS") →
        parseGlobalMisc pe.2 ∈ (parseBeerXml doc).miscs) ∧
      (∀ pe ∈ elemsWithParent none doc, pe.2.tagName = "MASH" →
        ¬ pe.1 = some "RECIPE" →
        parseMashNode pe.2 ∈ (parseBeerXml doc).mashes) := by
  intro doc
  refine ⟨rfl, rfl, rfl, ?_, ?_, ?_⟩ <;> intro pe hmem htag hglob
  · have h1 : pe ∈ docTagWithParent doc "STYLE" :=
      List.mem_filter.mpr ⟨hmem, decide_eq_true htag⟩
    have h2 : pe ∈ (docTagWithParent doc "STYLE").filter
        (fun pe => ¬ pe.1 = some "RECIPE") :=
      List.mem_filter.mpr ⟨h1, decide_eq_true hglob⟩
    exact List.mem_map_of_mem _ (List.mem_map_of_mem _ h2)
  · have h1 : pe ∈ docTagWithParent doc "MISC" :=
      List.mem_filter.mpr ⟨hmem, decide_eq_true htag⟩
    have h2 : pe ∈ (docTagWithParent doc "MISC").filter
        (fun pe => ¬ (pe.1 = some "RECIPE" ∨ pe.1 = some "MISCELLANEOUS")) :=
      List.mem_filter.mpr ⟨h1, decide_eq_true hglob⟩
    exact List.mem_map_of_mem _ (List.mem_map_of_mem _ h2)
  · have h1 : pe ∈ docTagWithParent doc "MASH" :=
      List.mem_filter.mpr ⟨hmem, decide_eq_true htag⟩
    have h2 : pe ∈ (docTagWithParent doc "MASH").filter
        (fun pe => ¬ pe.1 = some "RECIPE") :=
      List.mem_filter.mpr ⟨h1, decide_eq_true hglob⟩
    exact List.mem_map_of_mem _ (List.mem_map_of_mem _ h2)

/-- Witness for the global pass on a document with a top-level `STYLE`,
`MISC` and `MASH` next to a recipe-scoped `STYLE`. -/
theorem parseBeerXml_global_pass_witness :
    parseGlobalStyle (Xml.elem "STYLE" [Xml.elem "NAME" [Xml.text "IPA"]]) ∈
      (parseBeerXml mixedScopeDoc).styles ∧
    parseGlobalMisc (Xml.elem "MISC" [Xml.elem "NAME" [Xml.text "Irish Moss"]]) ∈
      (parseBeerXml mixedScopeDoc).miscs ∧
    parseMashNode (Xml.elem "MASH" [Xml.elem "NAME" [Xml.text "Single Infusion"]]) ∈
      (parseBeerXml mixedScopeDoc).mashes :=
  ⟨(parseBeerXml_global_pass mixedScopeDoc).2.2.2.1
      (some "DOC", Xml.elem "STYLE" [Xml.elem "NAME" [Xml.text "IPA"]])
      (List.Mem.tail _ (List.Mem.head _)) rfl (by decide),
   (parseBeerXml_global_pass mixedScopeDoc).2.2.2.2.1
      (some "DOC", Xml.elem "MISC" [Xml.elem "NAME" [Xml.text "Irish Moss"]])
      (List.Mem.tail _ (List.Mem.tail _ (List.Mem.tail _ (List.Mem.head _))))
      rfl (by decide),
   (parseBeerXml_global_pass mixedScopeDoc).2.2.2.2.2
      (some "DOC", Xml.elem "MASH" [Xml.elem "NAME" [Xml.text "Single Infusion"]])
      (List.Mem.tail _ (List.Mem.tail _ (List.Mem.tail _ (List.Mem.tail _
        (List.Mem.tail _ (List.Mem.head _)))))) rfl (by decide)⟩

/-! ## Claim C7 (confirmed): sanitization of exported free text -/

theorem sanitize_data (s : String) :
    (sanitize s).data = s.data.foldr (fun c acc => (entityOf c).data ++ acc) [] := by
  unfold sanitize
  induction s.data with
  | nil => rfl
  | cons c rest ih =>
      simp only [List.foldr_cons, String.data_append, ih]

theorem entityOf_no_raw (d c : Char) (hc : c = '<' ∨ c = '>' ∨ c = '"' ∨ c = '\'') :
    c ∉ (entityOf d).data := by
  unfold entityOf
  rcases hc with rfl | rfl | rfl | rfl <;>
    split_ifs <;>
    first
      | decide
      | (subst_vars; decide)
      | (intro hmem
         rw [show (String.singleton d).data = [d] from rfl,
           List.mem_singleton] at hmem
         subst hmem
         simp_all)

theorem sanitize_no_raw (s : String) (c : Char)
    (hc : c = '<' ∨ c = '>' ∨ c = '"' ∨ c = '\'') : c ∉ (sanitize s).data := by
  rw [sanitize_data]
  induction s.data with
  | nil => simp
  | cons d rest ih =>
      simp only [List.foldr_cons, List.mem_append, not_or]
      exact ⟨entityOf_no_raw d c hc, ih⟩

theorem sanitizeL_entity_infix (c : Char) :
    ∀ (l : List Char), c ∈ l →
      List.IsInfix (entityOf c).data
        (l.foldr (fun c acc => (entityOf c).data ++ acc) [])
  | [], hm => absurd hm (List.not_mem_nil c)
  | d :: rest, hm => by
      rcases List.mem_cons.mp hm with h | h
      · subst h
        exact ⟨[], rest.foldr (fun c acc => (entityOf c).data ++ acc) [], by simp⟩
      · obtain ⟨u, v, huv⟩ := sanitizeL_entity_infix c rest h
        exact ⟨(entityOf d).data ++ u, v, by
          simp only [List.foldr_cons, ← huv, List.append_assoc]⟩

theorem sanitize_entity_infix (s : String) (c : Char) (hm : c ∈ s.data) :
    List.IsInfix (entityOf c).data (sanitize s).data := by
  rw [sanitize_data]
  exact sanitizeL_entity_infix c s.data hm

theorem count_amp_entityOf (d : Char) :
    ((entityOf d).data.count '&') = (if isSpecialChar d then 1 else 0) := by
  by_cases h1 : d = '&'
  · subst h1; decide
  by_cases h2 : d = '<'
  · subst h2; decide
  by_cases h3 : d = '>'
  · subst h3; decide
  by_cases h4 : d = '"'
  · subst h4; decide
  by_cases h5 : d = '\''
  · subst h5; decide
  rw [entityOf, if_neg h1, if_neg h2, if_neg h3, if_neg h4, if_neg h5,
    show (String.singleton d).data = [d] from rfl,
    if_neg (by simp [isSpecialChar, h1, h2, h3, h4, h5])]
  simp [List.count_cons, h1]

theorem sanitize_count_amp (s : String) :
    ((sanitize s).data.count '&') = (s.data.filter isSpecialChar).length := by
  rw [sanitize_data]
  induction s.data with
  | nil => rfl
  | cons d rest ih =>
      simp only [List.foldr_cons, List.count_append, ih, List.filter_cons]
      rw [count_amp_entityOf]
      split_ifs <;> simp [Nat.add_comm]

theorem mem_joinLines_part :
    ∀ (parts : List String) (p : String), p ∈ parts →
      List.IsInfix p.data (joinLines parts).data
  | [], p, h => absurd h (List.not_mem_nil p)
  | [x], p, h => by
      rw [List.mem_singleton] at h
      subst h
      exact List.infix_refl _
  | x :: y :: ys, p, h => by
      rcases List.mem_cons.mp h with h | h
      · subst h
        exact ⟨[], ("\n" ++ joinLines (y :: ys)).data, by
          simp [joinLines, String.data_append]⟩
      · obtain ⟨u, v, huv⟩ := mem_joinLines_part (y :: ys) p h
        exact ⟨(x ++ "\n").data ++ u, v, by
          simp [joinLines, String.data_append, ← huv, List.append_assoc]⟩

theorem mem_foldr_append {α β : Type} (g : α → List β) :
    ∀ (l : List α) (x : α) (p : β), x ∈ l → p ∈ g x →
      p ∈ l.foldr (fun a acc => g a ++ acc) []
  | [], x, p, hx, _ => absurd hx (List.not_mem_nil x)
  | a :: as, x, p, hx, hp => by
      rcases List.mem_cons.mp hx with h | h
      · subst h
        exact List.mem_append.mpr (Or.inl hp)
      · exact List.mem_append.mpr (Or.inr (mem_foldr_append g as x p h hp))

theorem name_tag_infix_of_indented (s pre : String) :
    List.IsInfix ("<NAME>" ++ s ++ "</NAME>").data
      ((pre ++ "<NAME>" ++ s ++ "</NAME>").data) :=
  ⟨pre.data, [], by simp [String.data_append]⟩

-- C7 main test: recipe name part membership
example (r : Recipe) :
    ("    <NAME>" ++ sanitize r.name ++ "</NAME>") ∈ exportParts r := by
  simp only [exportParts, List.mem_append, List.mem_cons]
  tauto

theorem name_sub_part (indName san pre : String)
    (h : indName.data = pre.data ++ ("<NAME>" : String).data) :
    List.IsInfix (("<NAME>" ++ san ++ "</NAME>").data)
      ((indName ++ san ++ "</NAME>").data) :=
  ⟨pre.data, [], by simp [String.data_append, h, List.append_assoc]⟩

/-- C7: both exporters escape the five XML special characters in every
free-text field before embedding.  For every recipe: the `NAME` element
of the output holds exactly `sanitize(name)` (likewise each fermentable
and hop name, and each library-misc name in `exportLibraryToBeerXml`);
inside that sanitized content every special character of the original
appears as its entity, the characters `< > " '` never appear raw, and
every `&` belongs to an entity (the `&`-count equals the number of
escaped specials). -/
theorem export_sanitizes_free_text :
    ∀ (r : Recipe) (c : Char),
      List.IsInfix (("<NAME>" ++ sanitize r.name ++ "</NAME>").data)
        ((exportToBeerXml r).data) ∧
      (∀ f ∈ r.ingredients.fermentables,
        List.IsInfix (("<NAME>" ++ sanitize f.name ++ "</NAME>").data)
          ((exportToBeerXml r).data)) ∧
      (∀ h ∈ r.ingredients.hops,
        List.IsInfix (("<NAME>" ++ sanitize h.name ++ "</NAME>").data)
          ((exportToBeerXml r).data)) ∧
      (c ∈ r.name.data → isSpecialChar c = true →
        List.IsInfix ((entityOf c).data) ((sanitize r.name).data)) ∧
      ('<' ∉ (sanitize r.name).data ∧ '>' ∉ (sanitize r.name).data ∧
       '"' ∉ (sanitize r.name).data ∧ '\'' ∉ (sanitize r.name).data) ∧
      ((sanitize r.name).data.count '&' =
        (r.name.data.filter isSpecialChar).length) ∧
      (∀ (lib : List LibEntry) (m : LibEntry), m ∈ lib → m.ltype = "misc" →
        List.IsInfix (("<NAME>" ++ sanitize m.name ++ "</NAME>").data)
          ((exportLibraryToBeerXml lib).data)) := by
  intro r c
  refine ⟨?_, ?_, ?_,
    fun hm _ => sanitize_entity_infix r.name c hm,
    ⟨sanitize_no_raw _ _ (by tauto), sanitize_no_raw _ _ (by tauto),
     sanitize_no_raw _ _ (by tauto), sanitize_no_raw _ _ (by tauto)⟩,
    sanitize_count_amp r.name, ?_⟩
  · refine List.IsInfix.trans
      (name_sub_part "    <NAME>" (sanitize r.name) "    " (by decide))
      (mem_joinLines_part _ _ ?_)
    simp only [exportParts, List.mem_append, List.mem_cons]
    tauto
  · intro f hf
    have hmem := mem_foldr_append fermParts r.ingredients.fermentables f
      ("        <NAME>" ++ sanitize f.name ++ "</NAME>") hf (by
        simp only [fermParts, List.mem_cons]
        tauto)
    refine List.IsInfix.trans
      (name_sub_part "        <NAME>" (sanitize f.name) "        " (by decide))
      (mem_joinLines_part _ _ ?_)
    simp only [exportParts, List.mem_append, List.mem_cons]
    tauto
  · intro h hh
    have hmem := mem_foldr_append hopParts r.ingredients.hops h
      ("        <NAME>" ++ sanitize h.name ++ "</NAME>") hh (by
        simp only [hopParts, List.mem_cons]
        tauto)
    refine List.IsInfix.trans
      (name_sub_part "        <NAME>" (sanitize h.name) "        " (by decide))
      (mem_joinLines_part _ _ ?_)
    simp only [exportParts, List.mem_append, List.mem_cons]
    tauto
  · intro lib m hm hltype
    have hfil : m ∈ lib.filter (fun i => i.ltype = "misc") :=
      List.mem_filter.mpr ⟨hm, decide_eq_true hltype⟩
    have hmem := mem_foldr_append
      (fun m : LibEntry =>
        [ "  <MISC>",
          "    <NAME>" ++ sanitize m.name ++ "</NAME>",
          "    <TYPE>" ++ sanitize (strFieldOr m.misc_type "Other") ++ "</TYPE>",
          "    <USE>" ++ sanitize (strFieldOr m.misc_use "Boil") ++ "</USE>",
          "  </MISC>" ])
      (lib.filter (fun i => i.ltype = "misc")) m
      ("    <NAME>" ++ sanitize m.name ++ "</NAME>") hfil (by
        simp only [List.mem_cons]
        tauto)
    refine List.IsInfix.trans
      (name_sub_part "    <NAME>" (sanitize m.name) "    " (by decide))
      (mem_joinLines_part _ _ ?_)
    simp only [exportLibraryToBeerXml, List.mem_append, List.mem_cons]
    tauto

/-- Witness at a recipe named `"Wit & <Wisdom>"`. -/
theorem export_sanitizes_free_text_witness :
    List.IsInfix (("<NAME>" ++ sanitize c7Recipe.name ++ "</NAME>").data)
      ((exportToBeerXml c7Recipe).data) ∧
    List.IsInfix (("&amp;" : String).data) ((sanitize c7Recipe.name).data) ∧
    '<' ∉ (sanitize c7Recipe.name).data :=
  ⟨(export_sanitizes_free_text c7Recipe '&').1,
   by
     have h := (export_sanitizes_free_text c7Recipe '&').2.2.2.1 (by decide) (by decide)
     rwa [show entityOf '&' = "&amp;" from rfl] at h,
   (export_sanitizes_free_text c7Recipe '&').2.2.2.2.1.1⟩

theorem decodeListAux_fuel :
    ∀ (f₁ : ℕ) (l : List Char) (f₂ : ℕ), l.length ≤ f₁ → l.length ≤ f₂ →
      decodeListAux f₁ l = decodeListAux f₂ l := by
  intro f₁
  induction f₁ with
  | zero =>
      intro l f₂ h1 _
      rw [List.length_eq_zero.mp (Nat.le_zero.mp h1)]
      cases f₂ <;> rfl
  | succ f ih =>
      intro l f₂ h1 h2
      cases l with
      | nil => cases f₂ <;> rfl
      | cons c rest =>
          cases f₂ with
          | zero => simp at h2
          | succ g =>
              simp only [List.length_cons, Nat.succ_le_succ_iff] at h1 h2
              simp only [decodeListAux]
              split_ifs <;>
                first
                  | rfl
                  | (congr 1
                     apply ih <;> (try simp only [List.length_drop]) <;> omega)

theorem entityOf_nonspecial (c : Char) (hc : isSpecialChar c = false) :
    (entityOf c).data = [c] := by
  unfold entityOf
  simp only [isSpecialChar, decide_eq_false_iff_not, not_or] at hc
  obtain ⟨h1, h2, h3, h4, h5⟩ := hc
  rw [if_neg h1, if_neg h2, if_neg h3, if_neg h4, if_neg h5]
  rfl

theorem decodeList_cons_nonspecial (c : Char) (hc : isSpecialChar c = false)
    (rest : List Char) : decodeList (c :: rest) = c :: decodeList rest := by
  have hne : ¬ c = '&' := by
    simp only [isSpecialChar, decide_eq_false_iff_not, not_or] at hc
    exact hc.1
  simp only [decodeList, List.length_cons, decodeListAux, if_neg hne]

theorem decodeList_eq_aux (l : List Char) (f : ℕ) (h : l.length ≤ f) :
    decodeList l = decodeListAux f l :=
  decodeListAux_fuel l.length l f le_rfl h

theorem decodeList_entity (c : Char) (hc : isSpecialChar c = true)
    (rest : List Char) :
    decodeList ((entityOf c).data ++ rest) = c :: decodeList rest := by
  simp only [isSpecialChar, decide_eq_true_eq] at hc
  rcases hc with rfl | rfl | rfl | rfl | rfl
  · rw [show (entityOf '&').data = ['&', 'a', 'm', 'p', ';'] from rfl,
      decodeList_eq_aux _ (rest.length + 5) (by simp),
      show (['&', 'a', 'm', 'p', ';'] ++ rest) =
        '&' :: 'a' :: 'm' :: 'p' :: ';' :: rest from rfl,
      show rest.length + 5 = (rest.length + 4) + 1 from rfl,
      decodeListAux]
    simp [List.isPrefixOf]
    exact (decodeList_eq_aux rest _ (by omega)).symm
  · rw [show (entityOf '<').data = ['&', 'l', 't', ';'] from rfl,
      decodeList_eq_aux _ (rest.length + 4) (by simp),
      show (['&', 'l', 't', ';'] ++ rest) = '&' :: 'l' :: 't' :: ';' :: rest from rfl,
      show rest.length + 4 = (rest.length + 3) + 1 from rfl,
      decodeListAux]
    simp [List.isPrefixOf]
    exact (decodeList_eq_aux rest _ (by omega)).symm
  · rw [show (entityOf '>').data = ['&', 'g', 't', ';'] from rfl,
      decodeList_eq_aux _ (rest.length + 4) (by simp),
      show (['&', 'g', 't', ';'] ++ rest) = '&' :: 'g' :: 't' :: ';' :: rest from rfl,
      show rest.length + 4 = (rest.length + 3) + 1 from rfl,
      decodeListAux]
    simp [List.isPrefixOf]
    exact (decodeList_eq_aux rest _ (by omega)).symm
  · rw [show (entityOf '"').data = ['&', 'q', 'u', 'o', 't', ';'] from rfl,
      decodeList_eq_aux _ (rest.length + 6) (by simp),
      show (['&', 'q', 'u', 'o', 't', ';'] ++ rest) =
        '&' :: 'q' :: 'u' :: 'o' :: 't' :: ';' :: rest from rfl,
      show rest.length + 6 = (rest.length + 5) + 1 from rfl,
      decodeListAux]
    simp [List.isPrefixOf]
    exact (decodeList_eq_aux rest _ (by omega)).symm
  · rw [show (entityOf '\'').data = ['&', 'a', 'p', 'o', 's', ';'] from rfl,
      decodeList_eq_aux _ (rest.length + 6) (by simp),
      show (['&', 'a', 'p', 'o', 's', ';'] ++ rest) =
        '&' :: 'a' :: 'p' :: 'o' :: 's' :: ';' :: rest from rfl,
      show rest.length + 6 = (rest.length + 5) + 1 from rfl,
      decodeListAux]
    simp [List.isPrefixOf]
    exact (decodeList_eq_aux rest _ (by omega)).symm

theorem decodeList_sanitizeL :
    ∀ l : List Char,
      decodeList (l.foldr (fun c acc => (entityOf c).data ++ acc) []) = l
  | [] => rfl
  | c :: rest => by
      rw [List.foldr_cons]
      by_cases hc : isSpecialChar c
      · rw [decodeList_entity c hc, decodeList_sanitizeL rest]
      · rw [entityOf_nonspecial c (by simpa using hc), List.cons_append,
          List.nil_append,
          decodeList_cons_nonspecial c (by simpa using hc),
          decodeList_sanitizeL rest]

theorem decode_sanitize (s : String) : decodeEntities (sanitize s) = s := by
  obtain ⟨l⟩ := s
  show String.mk (decodeList (sanitize ⟨l⟩).data) = String.mk l
  rw [sanitize_data, decodeList_sanitizeL]

theorem textContent_leafX (t s : String) : textContent (leafX t s) = decodeEntities s := by
  simp [leafX, textContent, textContentL]

theorem descTagL_append (tag : String) (a b : List Xml) :
    descTagL tag (a ++ b) = descTagL tag a ++ descTagL tag b := by
  induction a with
  | nil => rfl
  | cons c cs ih => simp [descTagL, ih, List.append_assoc]

theorem descTagSelf_leafX (tag t s : String) :
    descTagSelf tag (leafX t s) = if t = tag then [leafX t s] else [] := by
  simp [descTagSelf, leafX, descTagL]

theorem descTagL_fermTrees_nil (tag : String) (fs : List Fermentable)
    (h1 : ¬ "FERMENTABLE" = tag) (h2 : ¬ "NAME" = tag) (h3 : ¬ "AMOUNT" = tag)
    (h4 : ¬ "COLOR" = tag) :
    descTagL tag (fs.map exportFermTree) = [] := by
  induction fs with
  | nil => rfl
  | cons f fs ih =>
      simp [exportFermTree, descTagL, descTagSelf, leafX, ih, h1, h2, h3, h4]

theorem descTagL_hopTrees_nil (tag : String) (hs : List Hop)
    (h1 : ¬ "HOP" = tag) (h2 : ¬ "NAME" = tag) (h3 : ¬ "ALPHA" = tag)
    (h4 : ¬ "AMOUNT" = tag) (h5 : ¬ "USE" = tag) (h6 : ¬ "TIME" = tag) :
    descTagL tag (hs.map exportHopTree) = [] := by
  induction hs with
  | nil => rfl
  | cons h hs ih =>
      simp [exportHopTree, descTagL, descTagSelf, leafX, ih, h1, h2, h3, h4, h5, h6]

theorem descTagL_miscTrees_nil (tag : String) (ms : List Misc)
    (h1 : ¬ "MISC" = tag) (h2 : ¬ "NAME" = tag) (h3 : ¬ "AMOUNT" = tag)
    (h4 : ¬ "TYPE" = tag) (h5 : ¬ "USE" = tag) (h6 : ¬ "TIME" = tag) :
    descTagL tag (ms.map exportMiscTree) = [] := by
  induction ms with
  | nil => rfl
  | cons m ms ih =>
      simp [exportMiscTree, descTagL, descTagSelf, leafX, ih, h1, h2, h3, h4, h5, h6]

theorem descTagL_styleTrees_nil (tag : String) (o : Option StyleRef)
    (h1 : ¬ "STYLE" = tag) (h2 : ¬ "NAME" = tag) (h3 : ¬ "CATEGORY" = tag)
    (h4 : ¬ "VERSION" = tag) :
    descTagL tag (exportStyleTrees o) = [] := by
  cases o with
  | none => rfl
  | some s =>
      simp [exportStyleTrees, descTagL, descTagSelf, leafX, h1, h2, h3, h4]

theorem descTagL_fermTrees_self (fs : List Fermentable) :
    descTagL "FERMENTABLE" (fs.map exportFermTree) = fs.map exportFermTree := by
  induction fs with
  | nil => rfl
  | cons f fs ih =>
      simp [exportFermTree, descTagL, descTagSelf, leafX, ih]

theorem descTagL_hopTrees_self (hs : List Hop) :
    descTagL "HOP" (hs.map exportHopTree) = hs.map exportHopTree := by
  induction hs with
  | nil => rfl
  | cons h hs ih =>
      simp [exportHopTree, descTagL, descTagSelf, leafX, ih]

theorem descTagL_miscSection_nil (tag : String) (ms : List Misc)
    (h0 : ¬ "MISCELLANEOUS" = tag)
    (h1 : ¬ "MISC" = tag) (h2 : ¬ "NAME" = tag) (h3 : ¬ "AMOUNT" = tag)
    (h4 : ¬ "TYPE" = tag) (h5 : ¬ "USE" = tag) (h6 : ¬ "TIME" = tag) :
    descTagL tag
      (if ms.length > 0 then [Xml.elem "MISCELLANEOUS" (ms.map exportMiscTree)]
       else []) = [] := by
  split_ifs
  · simp [descTagL, descTagSelf, h0,
      descTagL_miscTrees_nil tag ms h1 h2 h3 h4 h5 h6]
  · rfl

theorem ewpL_append (t : String) (a b : List Xml) :
    elemsWithParentL t (a ++ b) = elemsWithParentL t a ++ elemsWithParentL t b := by
  induction a with
  | nil => rfl
  | cons c cs ih => simp [elemsWithParentL, ih, List.append_assoc]

theorem ewpL_filterRecipe_ferm (t : String) (fs : List Fermentable) :
    (elemsWithParentL t (fs.map exportFermTree)).filter
      (fun pe => pe.2.tagName = "RECIPE") = [] := by
  induction fs with
  | nil => rfl
  | cons f fs ih =>
      rw [List.map_cons,
        show elemsWithParentL t (exportFermTree f :: fs.map exportFermTree) =
          elemsWithParent (some t) (exportFermTree f)
            ++ elemsWithParentL t (fs.map exportFermTree) from rfl,
        List.filter_append, ih, List.append_nil]
      rfl

theorem ewpL_filterRecipe_hop (t : String) (hs : List Hop) :
    (elemsWithParentL t (hs.map exportHopTree)).filter
      (fun pe => pe.2.tagName = "RECIPE") = [] := by
  induction hs with
  | nil => rfl
  | cons h hs ih =>
      rw [List.map_cons,
        show elemsWithParentL t (exportHopTree h :: hs.map exportHopTree) =
          elemsWithParent (some t) (exportHopTree h)
            ++ elemsWithParentL t (hs.map exportHopTree) from rfl,
        List.filter_append, ih, List.append_nil]
      rfl

theorem ewpL_filterRecipe_misc (t : String) (ms : List Misc) :
    (elemsWithParentL t (ms.map exportMiscTree)).filter
      (fun pe => pe.2.tagName = "RECIPE") = [] := by
  induction ms with
  | nil => rfl
  | cons m ms ih =>
      rw [List.map_cons,
        show elemsWithParentL t (exportMiscTree m :: ms.map exportMiscTree) =
          elemsWithParent (some t) (exportMiscTree m)
            ++ elemsWithParentL t (ms.map exportMiscTree) from rfl,
        List.filter_append, ih, List.append_nil]
      rfl

theorem ewpL_filterRecipe_style (t : String) (o : Option StyleRef) :
    (elemsWithParentL t (exportStyleTrees o)).filter
      (fun pe => pe.2.tagName = "RECIPE") = [] := by
  cases o with
  | none => rfl
  | some s => rfl

theorem filterRecipe_fermSec (p : Option String) (fs : List Fermentable) :
    (elemsWithParent p (Xml.elem "FERMENTABLES" (fs.map exportFermTree))).filter
      (fun pe => pe.2.tagName = "RECIPE") = [] := by
  rw [show elemsWithParent p (Xml.elem "FERMENTABLES" (fs.map exportFermTree)) =
      (p, Xml.elem "FERMENTABLES" (fs.map exportFermTree))
        :: elemsWithParentL "FERMENTABLES" (fs.map exportFermTree) from rfl,
    List.filter_cons]
  rw [show (decide ((Prod.mk p (Xml.elem "FERMENTABLES"
      (fs.map exportFermTree))).2.tagName = "RECIPE")) = false from rfl]
  simp only [Bool.false_eq_true, if_false]
  exact ewpL_filterRecipe_ferm _ _

theorem filterRecipe_hopSec (p : Option String) (hs : List Hop) :
    (elemsWithParent p (Xml.elem "HOPS" (hs.map exportHopTree))).filter
      (fun pe => pe.2.tagName = "RECIPE") = [] := by
  rw [show elemsWithParent p (Xml.elem "HOPS" (hs.map exportHopTree)) =
      (p, Xml.elem "HOPS" (hs.map exportHopTree))
        :: elemsWithParentL "HOPS" (hs.map exportHopTree) from rfl,
    List.filter_cons]
  rw [show (decide ((Prod.mk p (Xml.elem "HOPS"
      (hs.map exportHopTree))).2.tagName = "RECIPE")) = false from rfl]
  simp only [Bool.false_eq_true, if_false]
  exact ewpL_filterRecipe_hop _ _

theorem filterRecipe_miscSec (p : Option String) (ms : List Misc) :
    (elemsWithParent p (Xml.elem "MISCELLANEOUS" (ms.map exportMiscTree))).filter
      (fun pe => pe.2.tagName = "RECIPE") = [] := by
  rw [show elemsWithParent p (Xml.elem "MISCELLANEOUS" (ms.map exportMiscTree)) =
      (p, Xml.elem "MISCELLANEOUS" (ms.map exportMiscTree))
        :: elemsWithParentL "MISCELLANEOUS" (ms.map exportMiscTree) from rfl,
    List.filter_cons]
  rw [show (decide ((Prod.mk p (Xml.elem "MISCELLANEOUS"
      (ms.map exportMiscTree))).2.tagName = "RECIPE")) = false from rfl]
  simp only [Bool.false_eq_true, if_false]
  exact ewpL_filterRecipe_misc _ _

theorem exportRecipeTree_eq (r : Recipe) :
    exportRecipeTree r = .elem "RECIPE" (recChildren r) := rfl

theorem ewp_leafX (p : Option String) (a s : String) :
    elemsWithParent p (leafX a s) = [(p, leafX a s)] := by
  simp [leafX, elemsWithParent, elemsWithParentL]

theorem filter_tag_ewp_leafX (p : Option String) (a s tag : String)
    (h : ¬ a = tag) :
    (elemsWithParent p (leafX a s)).filter
      (fun pe => pe.2.tagName = tag) = [] := by
  rw [ewp_leafX]
  simp [Xml.tagName, leafX, h]

theorem filterRecipe_miscIf (ms : List Misc) :
    (elemsWithParentL "RECIPE"
      (if ms.length > 0 then [Xml.elem "MISCELLANEOUS" (ms.map exportMiscTree)]
       else [])).filter (fun pe => pe.2.tagName = "RECIPE") = [] := by
  split_ifs
  · simp only [elemsWithParentL, List.filter_append, List.filter_nil,
      List.append_nil]
    rw [filterRecipe_miscSec]
  · rfl

theorem filterRecipe_children (r : Recipe) :
    (elemsWithParentL "RECIPE" (recChildren r)).filter
      (fun pe => pe.2.tagName = "RECIPE") = [] := by
  unfold recChildren
  simp only [ewpL_append, elemsWithParentL, List.filter_append, List.filter_nil,
    List.append_nil, List.append_eq_nil, List.cons_append, List.nil_append]
  repeat' apply And.intro
  all_goals first
    | exact ewpL_filterRecipe_style _ _
    | exact filterRecipe_miscIf _
    | exact filterRecipe_fermSec _ _
    | exact filterRecipe_hopSec _ _
    | exact filter_tag_ewp_leafX _ _ _ _ (by decide)
    | rfl

theorem ewp_exportXmlTree (r : Recipe) :
    elemsWithParent none (exportXmlTree r) =
      (none, exportXmlTree r) :: (some "RECIPES", exportRecipeTree r)
        :: elemsWithParentL "RECIPE" (recChildren r) := by
  show (none, exportXmlTree r) :: elemsWithParentL "RECIPES" [exportRecipeTree r] = _
  rw [show elemsWithParentL "RECIPES" [exportRecipeTree r]
      = elemsWithParent (some "RECIPES") (exportRecipeTree r) ++ [] from rfl,
    List.append_nil, exportRecipeTree_eq]
  rfl

theorem recipes_of_exportTree (r : Recipe) :
    docTagWithParent (exportXmlTree r) "RECIPE" =
      [(some "RECIPES", exportRecipeTree r)] := by
  unfold docTagWithParent
  rw [ewp_exportXmlTree, List.filter_cons, List.filter_cons]
  rw [show (decide ((Prod.mk (none : Option String)
      (exportXmlTree r)).2.tagName = "RECIPE")) = false from rfl]
  rw [show (decide ((Prod.mk (some "RECIPES")
      (exportRecipeTree r)).2.tagName = "RECIPE")) = true from rfl]
  simp only [Bool.false_eq_true, if_false, if_true]
  rw [filterRecipe_children]

theorem parse_export_recipes (r : Recipe) :
    (parseBeerXml (exportXmlTree r)).recipes
      = [parseRecipeEl 0 (exportRecipeTree r)] := by
  simp only [parseBeerXml]
  rw [recipes_of_exportTree]
  rfl

theorem head_descTag_NAME (r : Recipe) :
    (descTag "NAME" (exportRecipeTree r)).head?
      = some (leafX "NAME" (sanitize r.name)) := rfl

theorem getVal_NAME_export (r : Recipe) :
    getVal (some (exportRecipeTree r)) "NAME" = r.name := by
  unfold getVal
  rw [show (some (exportRecipeTree r)).bind (fun e => (descTag "NAME" e).head?)
      = some (leafX "NAME" (sanitize r.name)) from head_descTag_NAME r]
  show textContent (leafX "NAME" (sanitize r.name)) = r.name
  rw [textContent_leafX, decode_sanitize]

theorem head_descTag_BATCH (r : Recipe) :
    (descTag "BATCH_SIZE" (exportRecipeTree r)).head?
      = some (leafX "BATCH_SIZE" (numToStr (uvValue r.batch_size))) := by
  rw [exportRecipeTree_eq]
  show (descTagL "BATCH_SIZE" (recChildren r)).head? = _
  unfold recChildren
  simp [descTagL, descTagSelf, descTagL_append, leafX,
    descTagL_styleTrees_nil "BATCH_SIZE" r.style
      (by decide) (by decide) (by decide) (by decide),
    descTagL_fermTrees_nil "BATCH_SIZE" r.ingredients.fermentables
      (by decide) (by decide) (by decide) (by decide),
    descTagL_hopTrees_nil "BATCH_SIZE" r.ingredients.hops
      (by decide) (by decide) (by decide) (by decide) (by decide) (by decide),
    descTagL_miscSection_nil "BATCH_SIZE" r.ingredients.miscellaneous
      (by decide) (by decide) (by decide) (by decide) (by decide) (by decide)
      (by decide)]

theorem getNum_BATCH_export (r : Recipe) :
    getNum (some (exportRecipeTree r)) "BATCH_SIZE"
      = getNumStr (decodeEntities (numToStr (uvValue r.batch_size))) := by
  unfold getNum
  rw [show (some (exportRecipeTree r)).bind
        (fun e => (descTag "BATCH_SIZE" e).head?)
      = some (leafX "BATCH_SIZE" (numToStr (uvValue r.batch_size)))
    from head_descTag_BATCH r]
  show getNumStr (textContent
    (leafX "BATCH_SIZE" (numToStr (uvValue r.batch_size)))) = _
  rw [textContent_leafX]

theorem descTag_FERM_export (r : Recipe) :
    descTag "FERMENTABLE" (exportRecipeTree r)
      = r.ingredients.fermentables.map exportFermTree := by
  rw [exportRecipeTree_eq]
  show descTagL "FERMENTABLE" (recChildren r) = _
  unfold recChildren
  simp [descTagL, descTagSelf, descTagL_append, leafX,
    descTagL_styleTrees_nil "FERMENTABLE" r.style
      (by decide) (by decide) (by decide) (by decide),
    descTagL_fermTrees_self,
    descTagL_hopTrees_nil "FERMENTABLE" r.ingredients.hops
      (by decide) (by decide) (by decide) (by decide) (by decide) (by decide),
    descTagL_miscSection_nil "FERMENTABLE" r.ingredients.miscellaneous
      (by decide) (by decide) (by decide) (by decide) (by decide) (by decide)
      (by decide)]

theorem descTag_HOP_export (r : Recipe) :
    descTag "HOP" (exportRecipeTree r)
      = r.ingredients.hops.map exportHopTree := by
  rw [exportRecipeTree_eq]
  show descTagL "HOP" (recChildren r) = _
  unfold recChildren
  simp [descTagL, descTagSelf, descTagL_append, leafX,
    descTagL_styleTrees_nil "HOP" r.style
      (by decide) (by decide) (by decide) (by decide),
    descTagL_fermTrees_nil "HOP" r.ingredients.fermentables
      (by decide) (by decide) (by decide) (by decide),
    descTagL_hopTrees_self,
    descTagL_miscSection_nil "HOP" r.ingredients.miscellaneous
      (by decide) (by decide) (by decide) (by decide) (by decide) (by decide)
      (by decide)]

theorem parseFerm_export_name (f : Fermentable) :
    (parseFermEl (exportFermTree f)).name = f.name := by
  show textContent (leafX "NAME" (sanitize f.name)) = f.name
  rw [textContent_leafX, decode_sanitize]

theorem parseFerm_export_amount (f : Fermentable) :
    (parseFermEl (exportFermTree f)).amount
      = some ⟨"kilograms",
          getNumStr (decodeEntities (numToStr (uvValue f.amount)))⟩ := by
  show some (⟨"kilograms", getNumStr (textContent
      (leafX "AMOUNT" (numToStr (uvValue f.amount))))⟩ : UnitValue) = _
  rw [textContent_leafX]

theorem parseFerm_export_color (f : Fermentable) :
    (parseFermEl (exportFermTree f)).color
      = getNumStr (decodeEntities (numToStr (jsOr f.color (some 0)))) := by
  show getNumStr (textContent
    (leafX "COLOR" (numToStr (jsOr f.color (some 0))))) = _
  rw [textContent_leafX]

theorem parseHop_export_name (h : Hop) :
    (parseHopEl (exportHopTree h)).name = h.name := by
  show textContent (leafX "NAME" (sanitize h.name)) = h.name
  rw [textContent_leafX, decode_sanitize]

theorem parseHop_export_amount (h : Hop) :
    (parseHopEl (exportHopTree h)).amount
      = some ⟨"grams",
          jsMul (getNumStr (decodeEntities
            (numToStr (jsDiv (uvValue h.amount) (some 1000)))))
            (some 1000)⟩ := by
  show some (⟨"grams", jsMul (getNumStr (textContent
      (leafX "AMOUNT" (numToStr (jsDiv (uvValue h.amount) (some 1000))))))
      (some 1000)⟩ : UnitValue) = _
  rw [textContent_leafX]

theorem parseHop_export_alpha (h : Hop) :
    (parseHopEl (exportHopTree h)).alphaAcid
      = getNumStr (decodeEntities (numToStr (jsOr h.alphaAcid (some 0)))) := by
  show getNumStr (textContent
    (leafX "ALPHA" (numToStr (jsOr h.alphaAcid (some 0))))) = _
  rw [textContent_leafX]

theorem parseHop_export_time (h : Hop) :
    (parseHopEl (exportHopTree h)).time
      = some ⟨"minutes",
          getNumStr (decodeEntities (numToStr (uvValue h.time)))⟩ := by
  show some (⟨"minutes", getNumStr (textContent
      (leafX "TIME" (numToStr (uvValue h.time))))⟩ : UnitValue) = _
  rw [textContent_leafX]

theorem jsDiv_thousand (w : ℚ) : jsDiv (some w) (some 1000) = some (w / 1000) := by
  rw [jsDiv]
  norm_num

theorem jsMul_back_thousand (w : ℚ) :
    jsMul (some (w / 1000)) (some 1000) = some w := by
  rw [jsMul]
  norm_num

/-- C4: serializing a recipe with `exportToBeerXml` and re-parsing the
produced document with `parseBeerXml` yields exactly one recipe whose name,
batch size, fermentable names/weights/colors, and hop
names/weights/alphas/times equal the original, whenever each numeric field
survives the decimal print/parse round trip (`rtNum`, the rational analogue
of "within floating-point tolerance") and is stored in the canonical unit
the fields are re-tagged with on import; the hop weight is divided by 1000
on export and multiplied back by 1000 on import, cancelling exactly. -/
theorem export_import_roundTrip (r : Recipe)
    (bv : ℚ) (hb : r.batch_size = some ⟨"liters", some bv⟩) (hbRT : rtNum bv)
    (hf : ∀ f ∈ r.ingredients.fermentables,
      (∃ av, f.amount = some ⟨"kilograms", some av⟩ ∧ rtNum av) ∧
      (∃ cv, f.color = some cv ∧ rtNum cv))
    (hh : ∀ h ∈ r.ingredients.hops,
      (∃ w, h.amount = some ⟨"grams", some w⟩ ∧ rtNum (w / 1000)) ∧
      (∃ al, h.alphaAcid = some al ∧ rtNum al) ∧
      (∃ tv, h.time = some ⟨"minutes", some tv⟩ ∧ rtNum tv)) :
    ((parseBeerXml (exportXmlTree r)).recipes).map Recipe.name = [r.name] ∧
    ((parseBeerXml (exportXmlTree r)).recipes).map Recipe.batch_size
      = [r.batch_size] ∧
    ((parseBeerXml (exportXmlTree r)).recipes).map
        (fun p => p.ingredients.fermentables.map
          (fun f => (f.name, f.amount, f.color)))
      = [r.ingredients.fermentables.map
          (fun f => (f.name, f.amount, f.color))] ∧
    ((parseBeerXml (exportXmlTree r)).recipes).map
        (fun p => p.ingredients.hops.map
          (fun h => (h.name, h.amount, h.alphaAcid, h.time)))
      = [r.ingredients.hops.map
          (fun h => (h.name, h.amount, h.alphaAcid, h.time))] := by
  unfold rtNum at hbRT
  rw [parse_export_recipes]
  refine ⟨?_, ?_, ?_, ?_⟩
  · simp only [List.map_cons, List.map_nil]
    rw [show (parseRecipeEl 0 (exportRecipeTree r)).name
        = getVal (some (exportRecipeTree r)) "NAME" from rfl, getVal_NAME_export]
  · simp only [List.map_cons, List.map_nil]
    rw [show (parseRecipeEl 0 (exportRecipeTree r)).batch_size
        = some ⟨"liters", getNum (some (exportRecipeTree r)) "BATCH_SIZE"⟩
      from rfl, getNum_BATCH_export, hb]
    rw [show numToStr (uvValue (some (⟨"liters", some bv⟩ : UnitValue)))
        = renderQ bv from rfl, hbRT]
  · simp only [List.map_cons, List.map_nil]
    rw [show (parseRecipeEl 0 (exportRecipeTree r)).ingredients.fermentables
        = (descTag "FERMENTABLE" (exportRecipeTree r)).map parseFermEl from rfl,
      descTag_FERM_export, List.map_map, List.map_map]
    congr 1
    apply List.map_congr_left
    intro f hfm
    obtain ⟨⟨av, haf, havRT⟩, ⟨cv, hcf, hcvRT⟩⟩ := hf f hfm
    unfold rtNum at havRT hcvRT
    simp only [Function.comp]
    rw [parseFerm_export_name, parseFerm_export_amount, parseFerm_export_color,
      haf, hcf, jsOr_some_zero]
    rw [show numToStr (uvValue (some (⟨"kilograms", some av⟩ : UnitValue)))
        = renderQ av from rfl, havRT]
    rw [show numToStr (some cv) = renderQ cv from rfl, hcvRT]
  · simp only [List.map_cons, List.map_nil]
    rw [show (parseRecipeEl 0 (exportRecipeTree r)).ingredients.hops
        = (descTag "HOP" (exportRecipeTree r)).map parseHopEl from rfl,
      descTag_HOP_export, List.map_map, List.map_map]
    congr 1
    apply List.map_congr_left
    intro h hm
    obtain ⟨⟨w, hw, hwRT⟩, ⟨al, hal, halRT⟩, ⟨tv, htv, htvRT⟩⟩ := hh h hm
    unfold rtNum at hwRT halRT htvRT
    simp only [Function.comp]
    rw [parseHop_export_name, parseHop_export_amount, parseHop_export_alpha,
      parseHop_export_time, hw, hal, htv, jsOr_some_zero]
    rw [show uvValue (some (⟨"grams", some w⟩ : UnitValue)) = some w from rfl,
      jsDiv_thousand w,
      show numToStr (some (w / 1000)) = renderQ (w / 1000) from rfl, hwRT,
      jsMul_back_thousand w]
    rw [show numToStr (some al) = renderQ al from rfl, halRT]
    rw [show numToStr (uvValue (some (⟨"minutes", some tv⟩ : UnitValue)))
        = renderQ tv from rfl, htvRT]

theorem export_import_roundTrip_witness :
    ((parseBeerXml (exportXmlTree c4Recipe)).recipes).map Recipe.name
        = [c4Recipe.name] ∧
    ((parseBeerXml (exportXmlTree c4Recipe)).recipes).map Recipe.batch_size
        = [c4Recipe.batch_size] ∧
    ((parseBeerXml (exportXmlTree c4Recipe)).recipes).map
        (fun p => p.ingredients.fermentables.map
          (fun f => (f.name, f.amount, f.color)))
      = [c4Recipe.ingredients.fermentables.map
          (fun f => (f.name, f.amount, f.color))] ∧
    ((parseBeerXml (exportXmlTree c4Recipe)).recipes).map
        (fun p => p.ingredients.hops.map
          (fun h => (h.name, h.amount, h.alphaAcid, h.time)))
      = [c4Recipe.ingredients.hops.map
          (fun h => (h.name, h.amount, h.alphaAcid, h.time))] := by
  have hrt20 : rtNum 20 := by
    have h0 : renderExp (20 : ℚ) 0 41 = some 0 := by rw [renderExp]; norm_num
    have h1 : renderQ 20 = "20" := by
      unfold renderQ; rw [h0]
      have hn : ((20 : ℚ) * 10 ^ 0).num = 20 := by norm_num
      simp only [hn]; decide
    unfold rtNum
    rw [show decodeEntities (renderQ 20) = "20" by rw [h1]; decide]
    simp [getNumStr, jsParseFloat, digitsVal, isDigitChar]
  have hrt5 : rtNum 5 := by
    have h0 : renderExp (5 : ℚ) 0 41 = some 0 := by rw [renderExp]; norm_num
    have h1 : renderQ 5 = "5" := by
      unfold renderQ; rw [h0]
      have hn : ((5 : ℚ) * 10 ^ 0).num = 5 := by norm_num
      simp only [hn]; decide
    unfold rtNum
    rw [show decodeEntities (renderQ 5) = "5" by rw [h1]; decide]
    simp [getNumStr, jsParseFloat, digitsVal, isDigitChar]
  have hrt3 : rtNum 3 := by
    have h0 : renderExp (3 : ℚ) 0 41 = some 0 := by rw [renderExp]; norm_num
    have h1 : renderQ 3 = "3" := by
      unfold renderQ; rw [h0]
      have hn : ((3 : ℚ) * 10 ^ 0).num = 3 := by norm_num
      simp only [hn]; decide
    unfold rtNum
    rw [show decodeEntities (renderQ 3) = "3" by rw [h1]; decide]
    simp [getNumStr, jsParseFloat, digitsVal, isDigitChar]
  have hrt60 : rtNum 60 := by
    have h0 : renderExp (60 : ℚ) 0 41 = some 0 := by rw [renderExp]; norm_num
    have h1 : renderQ 60 = "60" := by
      unfold renderQ; rw [h0]
      have hn : ((60 : ℚ) * 10 ^ 0).num = 60 := by norm_num
      simp only [hn]; decide
    unfold rtNum
    rw [show decodeEntities (renderQ 60) = "60" by rw [h1]; decide]
    simp [getNumStr, jsParseFloat, digitsVal, isDigitChar]
  have hrt72 : rtNum (7 / 2) := by
    have h0 : renderExp (7 / 2 : ℚ) 0 41 = some 1 := by
      rw [renderExp]; norm_num; rw [renderExp]; norm_num
    have h1 : renderQ (7 / 2) = "3.5" := by
      unfold renderQ; rw [h0]
      have hn : ((7 / 2 : ℚ) * 10 ^ 1).num = 35 := by norm_num
      simp only [hn]; decide
    unfold rtNum
    rw [show decodeEntities (renderQ (7 / 2)) = "3.5" by rw [h1]; decide]
    simp [getNumStr, jsParseFloat, digitsVal, isDigitChar]
    norm_num
  have hrt005 : rtNum (50 / 1000) := by
    have h0 : renderExp (50 / 1000 : ℚ) 0 41 = some 2 := by
      rw [renderExp]; norm_num; rw [renderExp]; norm_num; rw [renderExp]; norm_num
    have h1 : renderQ (50 / 1000) = "0.05" := by
      unfold renderQ; rw [h0]
      have hn : ((50 / 1000 : ℚ) * 10 ^ 2).num = 5 := by norm_num
      simp only [hn]; decide
    unfold rtNum
    rw [show decodeEntities (renderQ (50 / 1000)) = "0.05" by rw [h1]; decide]
    simp [getNumStr, jsParseFloat, digitsVal, isDigitChar]
    norm_num
  refine export_import_roundTrip c4Recipe 20 rfl hrt20 ?_ ?_
  · intro f hfm
    have hfe : f = ⟨"Pale", "grain", some ⟨"kilograms", some 5⟩,
        some 1.037, some 3, none⟩ := by
      simpa [c4Recipe] using hfm
    subst hfe
    exact ⟨⟨5, rfl, hrt5⟩, ⟨3, rfl, hrt3⟩⟩
  · intro h hm
    have hhe : h = ⟨"Saaz", some ⟨"grams", some 50⟩, some (7 / 2), "boil",
        some ⟨"minutes", some 60⟩, none⟩ := by
      simpa [c4Recipe] using hm
    subst hhe
    exact ⟨⟨50, rfl, hrt005⟩, ⟨7 / 2, rfl, hrt72⟩, ⟨60, rfl, hrt60⟩⟩
